import Mathlib

/-!
Verification development for the `libnmap.objects` module (classes `NmapHost`,
`NmapService`, `NmapReport`) of the python-libnmap repository.

The module manipulates loosely typed Python data (nested dictionaries, lists,
strings, integers, `None`).  We embed the relevant fragment of Python's value
universe as the inductive type `PyObj`, and Python's exception behaviour as
`Except PyErr`.  Python's built-in hash is randomized per process; we therefore
parameterize every hash-dependent definition by an arbitrary assignment
`PyHashP` of hash values to strings, integers and `None`.

The class `NmapDiff` (file `libnmap/diff.py`) is imported by `objects.py` but
its source is not part of the sources under verification; it is modelled from
the specification, see `mkNmapDiff` below.
-/

/-- Kinds of Python exceptions raised by the code under verification.
`exception` stands for a bare `Exception(...)` instance. -/
inductive PyErr : Type where
  | keyError : PyErr
  | typeError : PyErr
  | valueError : PyErr
  | exception : PyErr
  deriving DecidableEq, Repr

/-- Shallow embedding of the fragment of Python's value universe handled by
`libnmap.objects`: `None`, integers, strings, lists, and string-keyed
dictionaries (all dictionaries appearing in the module are string-keyed). -/
inductive PyObj : Type where
  | none : PyObj
  | int (i : Int) : PyObj
  | str (s : String) : PyObj
  | list (l : List PyObj) : PyObj
  | dict (d : List (String × PyObj)) : PyObj

mutual

/-- Structural boolean equality on `PyObj`, mirroring Python `==` on
values of the embedded fragment (Python compares different builtin types
as unequal, and compares containers elementwise). -/
def PyObj.beq : PyObj → PyObj → Bool
  | .none, .none => true
  | .int i, .int j => i == j
  | .str s, .str t => s == t
  | .list l, .list m => PyObj.beqL l m
  | .dict d, .dict e => PyObj.beqD d e
  | _, _ => false

/-- Elementwise equality of embedded Python lists. -/
def PyObj.beqL : List PyObj → List PyObj → Bool
  | [], [] => true
  | x :: xs, y :: ys => PyObj.beq x y && PyObj.beqL xs ys
  | _, _ => false

/-- Entrywise equality of embedded Python dictionaries (the module only ever
builds dictionaries whose entry order is determined, so entry lists are
compared positionally). -/
def PyObj.beqD : List (String × PyObj) → List (String × PyObj) → Bool
  | [], [] => true
  | (k, v) :: xs, (l, w) :: ys => k == l && PyObj.beq v w && PyObj.beqD xs ys
  | _, _ => false

end

mutual

/-- `PyObj.beq` agrees with propositional equality. -/
theorem PyObj.beq_iff : (a b : PyObj) → (PyObj.beq a b = true ↔ a = b)
  | .none, b => by cases b <;> simp [PyObj.beq]
  | .int i, b => by cases b <;> simp [PyObj.beq]
  | .str s, b => by cases b <;> simp [PyObj.beq]
  | .list l, .none => by simp [PyObj.beq]
  | .list l, .int _ => by simp [PyObj.beq]
  | .list l, .str _ => by simp [PyObj.beq]
  | .list l, .list m => by
      simp only [PyObj.beq, PyObj.list.injEq]
      exact PyObj.beqL_iff l m
  | .list l, .dict _ => by simp [PyObj.beq]
  | .dict d, .none => by simp [PyObj.beq]
  | .dict d, .int _ => by simp [PyObj.beq]
  | .dict d, .str _ => by simp [PyObj.beq]
  | .dict d, .list _ => by simp [PyObj.beq]
  | .dict d, .dict e => by
      simp only [PyObj.beq, PyObj.dict.injEq]
      exact PyObj.beqD_iff d e

/-- `PyObj.beqL` agrees with propositional equality. -/
theorem PyObj.beqL_iff : (l m : List PyObj) → (PyObj.beqL l m = true ↔ l = m)
  | [], [] => by simp [PyObj.beqL]
  | [], _ :: _ => by simp [PyObj.beqL]
  | _ :: _, [] => by simp [PyObj.beqL]
  | x :: xs, y :: ys => by
      simp only [PyObj.beqL, Bool.and_eq_true, List.cons.injEq]
      rw [PyObj.beq_iff x y, PyObj.beqL_iff xs ys]

/-- `PyObj.beqD` agrees with propositional equality. -/
theorem PyObj.beqD_iff : (d e : List (String × PyObj)) → (PyObj.beqD d e = true ↔ d = e)
  | [], [] => by simp [PyObj.beqD]
  | [], _ :: _ => by simp [PyObj.beqD]
  | _ :: _, [] => by simp [PyObj.beqD]
  | (k, v) :: xs, (l, w) :: ys => by
      simp only [PyObj.beqD, Bool.and_eq_true, List.cons.injEq, Prod.mk.injEq, beq_iff_eq]
      rw [PyObj.beq_iff v w, PyObj.beqD_iff xs ys]

end

instance : DecidableEq PyObj := fun a b => decidable_of_iff _ (PyObj.beq_iff a b)

/-- Python truthiness of an embedded value: `None`, `0`, and empty containers
and strings are falsy; everything else is truthy. -/
def pyTruthy : PyObj → Bool
  | .none => false
  | .int i => i != 0
  | .str s => s ≠ ""
  | .list l => !l.isEmpty
  | .dict d => !d.isEmpty

/-- Python `a or b` on an embedded value: returns `a` when `a` is truthy,
otherwise `b`. -/
def pyOr (a b : PyObj) : PyObj := if pyTruthy a then a else b

/-- Python subscript `v[k]` with a string key: succeeds only on a dictionary
holding the key; a dictionary without the key raises `KeyError`; subscripting
`None`, an integer, a string or a list with a string key raises `TypeError`. -/
def pySubscript (v : PyObj) (k : String) : Except PyErr PyObj :=
  match v with
  | .dict d =>
      match d.lookup k with
      | some w => .ok w
      | Option.none => .error .keyError
  | _ => .error .typeError

/-- Python membership test `k in v` for a string `k`: key containment for a
dictionary, element membership for a list, substring containment for a string;
`None` and integers are not containers and raise `TypeError`. -/
def pyInOp (k : String) (v : PyObj) : Except PyErr Bool :=
  match v with
  | .dict d => .ok (d.any (fun kv => kv.1 == k))
  | .list l => .ok (l.contains (.str k))
  | .str s => .ok (decide (k.data <:+: s.data))
  | _ => .error .typeError

/-- Digits-only parse of a character list into a natural number; `Option.none`
on an empty list or a non-digit character. -/
def digitsToNat : List Char → Option Nat
  | [] => Option.none
  | cs => cs.foldl
      (fun acc c => match acc with
        | Option.none => Option.none
        | some n => if c.isDigit then some (n * 10 + (c.toNat - 48)) else Option.none)
      (some 0)

/-- Model of Python `int(s)` on a string: optional surrounding spaces, an
optional sign, then decimal digits; anything else raises `ValueError`
(signalled here by `Option.none`). -/
def pyParseInt (s : String) : Option Int :=
  let cs := ((s.data.dropWhile (· = ' ')).reverse.dropWhile (· = ' ')).reverse
  match cs with
  | '-' :: rest => (digitsToNat rest).map (fun n => -(n : Int))
  | '+' :: rest => (digitsToNat rest).map (fun n => (n : Int))
  | rest => (digitsToNat rest).map (fun n => (n : Int))

/-- Model of Python `int(v)`: the identity on integers, string parsing (with
`ValueError` on failure) on strings, and `TypeError` on `None`, lists and
dictionaries. -/
def pyToInt : PyObj → Except PyErr Int
  | .int i => .ok i
  | .str s =>
      match pyParseInt s with
      | some n => .ok n
      | Option.none => .error .valueError
  | _ => .error .typeError

mutual

/-- Model of Python `repr` on the embedded fragment (strings quoted,
containers rendered recursively).  Only used through `pyStrOf` for the
formatting of identity keys in `get_dict`. -/
def pyReprOf : PyObj → String
  | .none => "None"
  | .int i => toString i
  | .str s => "'" ++ s ++ "'"
  | .list l => "[" ++ pyReprList l ++ "]"
  | .dict d => "\x7b" ++ pyReprDict d ++ "\x7d"

/-- Comma-separated rendering of list elements, as in Python `repr`. -/
def pyReprList : List PyObj → String
  | [] => ""
  | [x] => pyReprOf x
  | x :: y :: xs => pyReprOf x ++ ", " ++ pyReprList (y :: xs)

/-- Comma-separated rendering of dictionary entries, as in Python `repr`. -/
def pyReprDict : List (String × PyObj) → String
  | [] => ""
  | [(k, v)] => "'" ++ k ++ "': " ++ pyReprOf v
  | (k, v) :: kv :: xs => "'" ++ k ++ "': " ++ pyReprOf v ++ ", " ++ pyReprDict (kv :: xs)

end

/-- Model of Python `str(v)`: a string renders as itself (unquoted), other
values render as their `repr`. -/
def pyStrOf : PyObj → String
  | .str s => s
  | v => pyReprOf v

/-- Hash assignment for the hashable leaves of the embedded fragment.  Python's
built-in string hashing is randomized per process, so all hash-dependent
definitions are parameterized by an arbitrary `PyHashP`; hash values are
modelled as natural numbers combined with exclusive-or, as in the source. -/
structure PyHashP : Type where
  hstr : String → Nat
  hint : Int → Nat
  hnone : Nat

/-- Hash of a single character, i.e. of the one-character Python string. -/
def PyHashP.hchar (hp : PyHashP) (c : Char) : Nat := hp.hstr (String.singleton c)

/-- Model of Python `hash(v)` on an embedded value: defined on `None`,
integers and strings; lists and dictionaries are unhashable (`TypeError`). -/
def pyHash (hp : PyHashP) : PyObj → Except PyErr Nat
  | .none => .ok hp.hnone
  | .int i => .ok (hp.hint i)
  | .str s => .ok (hp.hstr s)
  | _ => .error .typeError

/-- Keys of an association-list dictionary, in entry order. -/
def dictKeys {V : Type} (d : List (String × V)) : List String := d.map Prod.fst

/-- Python dictionary insertion `d[k] = v`: overwrites the value in place if
the key is present, otherwise appends the new entry. -/
def pyDictInsert {V : Type} (d : List (String × V)) (k : String) (v : V) :
    List (String × V) :=
  if d.any (fun kv => kv.1 == k) then
    d.map (fun kv => if kv.1 == k then (kv.1, v) else kv)
  else d ++ [(k, v)]

/-- Python `dict(pairs)`: builds a dictionary by inserting the pairs left to
right, so a repeated key keeps its first position but its last value. -/
def pyDictOf {V : Type} (l : List (String × V)) : List (String × V) :=
  l.foldl (fun d kv => pyDictInsert d kv.1 kv.2) []

/-- Python `d.update(pairs)`: inserts every pair of `pairs` into `d` in
order. -/
def pyDictUpdate {V : Type} (d u : List (String × V)) : List (String × V) :=
  u.foldl (fun d kv => pyDictInsert d kv.1 kv.2) d

/-- First-occurrence deduplication with an accumulator of already-seen
elements.  `dedupFAux seen l` drops every element of `l` that occurs in `seen`
or earlier in `l`. -/
def dedupFAux {β : Type} [DecidableEq β] (seen : List β) : List β → List β
  | [] => []
  | x :: xs => if x ∈ seen then dedupFAux seen xs else x :: dedupFAux (x :: seen) xs

/-- First-occurrence deduplication of a list, modelling the element set of a
Python `frozenset` built from that list. -/
def dedupF {β : Type} [DecidableEq β] (l : List β) : List β := dedupFAux [] l

/-- Exclusive-or fold of a list of hash values. -/
def xorList (l : List Nat) : Nat := l.foldr (fun a b => a ^^^ b) 0

/-- Model of Python `hash(frozenset(l))` given a hash function on elements:
the per-element hashes of the distinct elements of `l` are combined with the
commutative exclusive-or, and the size of the set is mixed in (CPython's
frozenset hash depends only on the set of element hashes and the set size). -/
def fsHash {β : Type} [DecidableEq β] (h : β → Nat) (l : List β) : Nat :=
  xorList ((dedupF l).map h) ^^^ (dedupF l).length

/-- Model of Python `" ".join(l)`. -/
def joinSp : List String → String
  | [] => ""
  | [x] => x
  | x :: y :: xs => x ++ " " ++ joinSp (y :: xs)

/-- Value object for one scanned port, mirroring class `NmapService`.  The
`state` and `service` dictionaries produced by the report loader map string
keys to string values.  `pyDictOf` normalization records that a Python
dictionary carries each key at most once. -/
structure NmapService : Type where
  portid : Int
  protocol : String
  stateD : List (String × String)
  serviceD : List (String × String)
  serviceExtras : PyObj
  deriving DecidableEq

/-- Constructor `NmapService.__init__`: `self._portid = int(portid or -1)`
propagates `ValueError`/`TypeError` from the conversion, then ports outside
`[0, 65535]` raise `ValueError`; `state`/`service`/`service_extras` default to
empty containers when `None` is passed. -/
def NmapService.make (portid : PyObj) (protocol : String)
    (state service : Option (List (String × String))) (service_extras : Option PyObj) :
    Except PyErr NmapService := do
  let p ← pyToInt (pyOr portid (.int (-1)))
  if p < 0 ∨ p > 65535 then
    .error .valueError
  else
    .ok ⟨p, protocol, pyDictOf (state.getD []), pyDictOf (service.getD []),
         service_extras.getD (.list [])⟩

/-- Property `NmapService.port`. -/
def NmapService.port (s : NmapService) : Int := s.portid

/-- Property `NmapService.state`: `self._state['state'] if 'state' in
self._state else None`. -/
def NmapService.state (s : NmapService) : Option String := s.stateD.lookup "state"

/-- Property `NmapService.service`: `self._service['name'] if 'name' in
self._service else None`. -/
def NmapService.service (s : NmapService) : Option String := s.serviceD.lookup "name"

/-- Property `NmapService.banner`: when the detection method recorded in the
service dictionary is `"probed"`, the space-joined `"key: value"` rendering of
every service-dictionary entry other than `name`, `method` and `conf`, in
dictionary order; the empty string otherwise. -/
def NmapService.banner (s : NmapService) : String :=
  if s.serviceD.lookup "method" = some "probed" then
    joinSp ((s.serviceD.filter (fun kv => !(["name", "method", "conf"].contains kv.1))).map
      (fun kv => kv.1 ++ ": " ++ kv.2))
  else ""

/-- Property `NmapService.id`: the identity tuple `(protocol, port)`. -/
def NmapService.idT (s : NmapService) : String × Int := (s.protocol, s.portid)

/-- Python `str` of an identity tuple `(protocol, port)`, e.g. `('tcp', 22)`
(protocol strings such as `tcp`/`udp` contain no characters needing escapes,
so `repr` is plain single-quoting). -/
def pyTupleRepr (p : String × Int) : String :=
  "('" ++ p.1 ++ "', " ++ toString p.2 ++ ")"

/-- Embedding of an optional string as a Python value (`None` when absent). -/
def optToPy : Option String → PyObj
  | some s => .str s
  | Option.none => .none

/-- Method `NmapService.get_dict`: the flat comparison substrate
`{'id': str(id), 'port': str(port), 'protocol': ..., 'banner': ...,
'service': ..., 'state': ...}`. -/
def NmapService.get_dict (s : NmapService) : List (String × PyObj) :=
  [("id", .str (pyTupleRepr s.idT)), ("port", .str (toString s.portid)),
   ("protocol", .str s.protocol), ("banner", .str s.banner),
   ("service", optToPy s.service), ("state", optToPy s.state)]

/-- Hash of an optional string, as Python hashes the accessor results that are
either a string or `None`. -/
def hashOptStr (hp : PyHashP) : Option String → Nat
  | some s => hp.hstr s
  | Option.none => hp.hnone

/-- Method `NmapService.__hash__`: `hash(port) ^ hash(protocol) ^ hash(state)
^ hash(service) ^ hash(banner)`. -/
def NmapService.svcHash (hp : PyHashP) (s : NmapService) : Nat :=
  hp.hint s.portid ^^^ hp.hstr s.protocol ^^^ hashOptStr hp s.state ^^^
    hashOptStr hp s.service ^^^ hp.hstr s.banner

/-- Classified key sets of a comparison, as exposed by the diff engine. -/
structure NmapDiff : Type where
  added : List String
  removed : List String
  changed : List String
  unchanged : List String
  deriving DecidableEq

/-- Modelled from the spec: class `NmapDiff` of `libnmap/diff.py`, which
`objects.py` imports but whose source file is not among the sources under
verification.  Following spec section 4.3: given the two `get_dict` mappings,
`added` is the keys present only in the second, `removed` the keys present
only in the first, `changed` the common keys whose associated values differ,
and `unchanged` the common keys with equal values. -/
def mkNmapDiff (d1 d2 : List (String × PyObj)) : NmapDiff :=
  ⟨(dictKeys d2).filter (fun k => !((dictKeys d1).contains k)),
   (dictKeys d1).filter (fun k => !((dictKeys d2).contains k)),
   (dictKeys d1).filter (fun k => (dictKeys d2).contains k && !(d1.lookup k == d2.lookup k)),
   (dictKeys d1).filter (fun k => (dictKeys d2).contains k && (d1.lookup k == d2.lookup k))⟩

/-- Method `NmapService.diff`: `NmapDiff(self, other)` over the two
comparison substrates. -/
def NmapService.diff (a b : NmapService) : NmapDiff :=
  mkNmapDiff a.get_dict b.get_dict

/-- Method `NmapService.changed`: `len(self.diff(other).changed())`. -/
def NmapService.changed (a b : NmapService) : Nat := (a.diff b).changed.length

/-- Method `NmapService.__eq__`: same class (enforced here by the type), same
identity tuple, and zero changed count.  -/
def NmapService.eqPy (a b : NmapService) : Bool :=
  a.idT == b.idT && a.changed b == 0

/-- Method `NmapService.__ne__`: `True` unless the identity tuples match, in
which case the changed count must be positive. -/
def NmapService.nePy (a b : NmapService) : Bool :=
  if a.idT == b.idT then decide (0 < a.changed b) else true

/-- Identity-and-content fingerprint of a service: the identity tuple together
with the comparison substrate.  `NmapService.eqPy a b` holds exactly when the
fingerprints coincide (theorem `NmapService.eqPy_iff_fp`), so the element set
of a Python `frozenset` of services is determined by the fingerprints. -/
def NmapService.fp (s : NmapService) : (String × Int) × List (String × PyObj) :=
  (s.idT, s.get_dict)

/-- Total hash of an embedded value; coincides with `pyHash` on hashable
values and is only applied to such values. -/
def pyHashT (hp : PyHashP) : PyObj → Nat
  | .none => hp.hnone
  | .int i => hp.hint i
  | .str s => hp.hstr s
  | _ => 0

/-- Service hash recomputed from the fingerprint alone; agrees with
`NmapService.svcHash` (theorem `NmapService.svcHash_eq_fp`), which justifies
hashing a `frozenset` of services through their fingerprints. -/
def svcHashOfFp (hp : PyHashP) (f : (String × Int) × List (String × PyObj)) : Nat :=
  hp.hint f.1.2 ^^^ hp.hstr f.1.1 ^^^ pyHashT hp ((f.2.lookup "state").getD .none) ^^^
    pyHashT hp ((f.2.lookup "service").getD .none) ^^^
    pyHashT hp ((f.2.lookup "banner").getD .none)

/-- Value object for one scanned endpoint, mirroring class `NmapHost`.  The
`status` and `address` dictionaries may carry arbitrary embedded values;
`extrasO` is the open-ended extras mapping, kept as a full `PyObj` because the
accessors must be checked against containers of any shape. -/
structure NmapHost : Type where
  starttime : String
  endtime : String
  hostnamesL : List String
  statusD : List (String × PyObj)
  addressD : List (String × PyObj)
  servicesL : List NmapService
  extrasO : PyObj
  deriving DecidableEq

/-- Constructor `NmapHost.__init__`: every `None` argument defaults to an
empty container; no field is validated. -/
def NmapHost.make (starttime endtime : String)
    (address status : Option (List (String × PyObj)))
    (hostnames : Option (List String)) (services : Option (List NmapService))
    (extras : Option PyObj) : NmapHost :=
  ⟨starttime, endtime, hostnames.getD [], pyDictOf (status.getD []),
   pyDictOf (address.getD []), services.getD [], extras.getD (.dict [])⟩

/-- Property `NmapHost.address`: `self._address['addr']`, raising `KeyError`
when the address dictionary has no such key. -/
def NmapHost.address (h : NmapHost) : Except PyErr PyObj :=
  pySubscript (.dict h.addressD) "addr"

/-- Property `NmapHost.status`: `self._status['state']`, raising `KeyError`
when the status dictionary has no such key. -/
def NmapHost.status (h : NmapHost) : Except PyErr PyObj :=
  pySubscript (.dict h.statusD) "state"

/-- Property `NmapHost.id`: the address accessor. -/
def NmapHost.id (h : NmapHost) : Except PyErr PyObj := h.address

/-- Method `NmapHost.get_service`: filters the services on port and protocol;
more than one match raises `Exception("Duplicate services found ...")`,
one match returns it (`plist.pop()`), no match returns `None`. -/
def NmapHost.get_service (h : NmapHost) (portno : Int) (protocol : String) :
    Except PyErr (Option NmapService) :=
  let plist := h.servicesL.filter (fun p => p.portid == portno && p.protocol == protocol)
  if plist.length > 1 then .error .exception
  else .ok plist.getLast?

/-- Evaluation of `s.id()` inside `NmapHost.get_service_byid`: `id` is a
property, so `s.id` is already the `(protocol, port)` tuple, and calling a
tuple raises `TypeError: 'tuple' object is not callable`. -/
def NmapService.idCalled (_s : NmapService) : Except PyErr Bool :=
  .error .typeError

/-- Method `NmapHost.get_service_byid`: builds
`[s for s in self.services if s.id() == id]` — evaluating `s.id()` for each
service (which raises, see `NmapService.idCalled`) — then raises on more than
one match, returns the single match, or returns `None`. -/
def NmapHost.get_service_byid (h : NmapHost) (_sid : String × Int) :
    Except PyErr (Option NmapService) := do
  let mask ← h.servicesL.mapM NmapService.idCalled
  let hits := (h.servicesL.zip mask).filterMap
    (fun p => if p.2 then some p.1 else Option.none)
  if hits.length > 1 then .error .exception
  else .ok (if hits.length == 1 then hits.getLast? else Option.none)

/-- Try/except wrapper shared by the extras accessors: `KeyError` and
`TypeError` are caught and replaced by the documented default; any other
exception propagates. -/
def exceptKT {α : Type} (dflt : α) (m : Except PyErr α) : Except PyErr α :=
  match m with
  | .ok v => .ok v
  | .error .keyError => .ok dflt
  | .error .typeError => .ok dflt
  | .error e => .error e

/-- Method `NmapHost.os_class_probabilities`: `self._extras['osclass']`,
defaulting to the empty list. -/
def NmapHost.os_class_probabilities (h : NmapHost) : Except PyErr PyObj :=
  exceptKT (.list []) (pySubscript h.extrasO "osclass")

/-- Method `NmapHost.os_match_probabilities`: `self._extras['osmatch']`,
defaulting to the empty list. -/
def NmapHost.os_match_probabilities (h : NmapHost) : Except PyErr PyObj :=
  exceptKT (.list []) (pySubscript h.extrasO "osmatch")

/-- Property `NmapHost.os_fingerprint`: `self._extras['osfingerprint']`,
defaulting to the empty string. -/
def NmapHost.os_fingerprint (h : NmapHost) : Except PyErr PyObj :=
  exceptKT (.str "") (pySubscript h.extrasO "osfingerprint")

/-- Method `NmapHost.os_ports_used`: `self._extras['ports_used']`, defaulting
to the empty list. -/
def NmapHost.os_ports_used (h : NmapHost) : Except PyErr PyObj :=
  exceptKT (.list []) (pySubscript h.extrasO "ports_used")

/-- Property `NmapHost.tcpsequence`:
`self._extras['tcpsequence']['difficulty']`, defaulting to the empty
string. -/
def NmapHost.tcpsequence (h : NmapHost) : Except PyErr PyObj :=
  exceptKT (.str "") (do
    let v ← pySubscript h.extrasO "tcpsequence"
    pySubscript v "difficulty")

/-- Property `NmapHost.ipsequence`: `self._extras['ipidsequance']['class']`
(the misspelt key is the source's), defaulting to the empty string. -/
def NmapHost.ipsequence (h : NmapHost) : Except PyErr PyObj :=
  exceptKT (.str "") (do
    let v ← pySubscript h.extrasO "ipidsequance"
    pySubscript v "class")

/-- Property `NmapHost.uptime`: `int(self._extras['uptime']['seconds'])`,
defaulting to `0` on `KeyError`/`TypeError`; a `ValueError` raised by the
`int` conversion is not caught and propagates. -/
def NmapHost.uptime (h : NmapHost) : Except PyErr Int :=
  exceptKT 0 (do
    let u ← pySubscript h.extrasO "uptime"
    let s ← pySubscript u "seconds"
    pyToInt s)

/-- Property `NmapHost.lastboot`: `self._extras['uptime']['lastboot']`,
defaulting to the empty string. -/
def NmapHost.lastboot (h : NmapHost) : Except PyErr PyObj :=
  exceptKT (.str "") (do
    let u ← pySubscript h.extrasO "uptime"
    pySubscript u "lastboot")

/-- Property `NmapHost.distance`: `int(self._extras['distance']['value'])`,
defaulting to `0` on `KeyError`/`TypeError`; a `ValueError` raised by the
`int` conversion propagates. -/
def NmapHost.distance (h : NmapHost) : Except PyErr Int :=
  exceptKT 0 (do
    let d ← pySubscript h.extrasO "distance"
    let v ← pySubscript d "value"
    pyToInt v)

/-- Key under which a service appears in `NmapHost.get_dict`:
`"%s.%s" % (s.__class__.__name__, str(s.id))`. -/
def NmapHost.svcKey (s : NmapService) : String :=
  "NmapService." ++ pyTupleRepr s.idT

/-- Space-joined hostnames, `" ".join(self._hostnames)`. -/
def NmapHost.joined (h : NmapHost) : String := joinSp h.hostnamesL

/-- Method `NmapHost.get_dict`: the dictionary mapping each owned service's
rendered identity to its hash, updated with the `address`, `status` and
space-joined `hostnames` fields. -/
def NmapHost.get_dict (hp : PyHashP) (h : NmapHost) :
    Except PyErr (List (String × PyObj)) := do
  let base := pyDictOf (h.servicesL.map
    (fun s => (NmapHost.svcKey s, PyObj.int (Int.ofNat (s.svcHash hp)))))
  let ad ← h.address
  let st ← h.status
  pure (pyDictUpdate base
    [("address", ad), ("status", st), ("hostnames", .str h.joined)])

/-- Method `NmapHost.__hash__`: `hash(status) ^ hash(address) ^
hash(frozenset(services)) ^ hash(frozenset(" ".join(hostnames)))`.  The
services frozenset is hashed through the service fingerprints
(`NmapService.fp`), which determine both the set's elements (theorem
`NmapService.eqPy_iff_fp`) and the per-element hashes (theorem
`NmapService.svcHash_eq_fp`); the hostnames frozenset's elements are the
characters of the joined string. -/
def NmapHost.hashPy (hp : PyHashP) (h : NmapHost) : Except PyErr Nat := do
  let st ← h.status
  let hst ← pyHash hp st
  let ad ← h.address
  let had ← pyHash hp ad
  pure (hst ^^^ had ^^^ fsHash (svcHashOfFp hp) (h.servicesL.map NmapService.fp) ^^^
    fsHash hp.hchar h.joined.data)

/-- Method `NmapHost.diff`: `NmapDiff(self, other)` over the two comparison
substrates (each of which may raise while being built). -/
def NmapHost.diff (hp : PyHashP) (a b : NmapHost) : Except PyErr NmapDiff := do
  let d1 ← a.get_dict hp
  let d2 ← b.get_dict hp
  pure (mkNmapDiff d1 d2)

/-- Method `NmapHost.changed`: `len(self.diff(other).changed())`. -/
def NmapHost.changed (hp : PyHashP) (a b : NmapHost) : Except PyErr Nat := do
  let d ← NmapHost.diff hp a b
  pure d.changed.length

/-- Method `NmapHost.__eq__`: same class (enforced by the type), identity
values compared first, then zero changed count. -/
def NmapHost.eqPy (hp : PyHashP) (a b : NmapHost) : Except PyErr Bool := do
  let ia ← a.id
  let ib ← b.id
  if ia = ib then do
    let c ← NmapHost.changed hp a b
    pure (c == 0)
  else pure false

/-- Method `NmapHost.__ne__`: `True` unless the identities match, in which
case the changed count must be positive. -/
def NmapHost.nePy (hp : PyHashP) (a b : NmapHost) : Except PyErr Bool := do
  let ia ← a.id
  let ib ← b.id
  if ia = ib then do
    let c ← NmapHost.changed hp a b
    pure (decide (0 < c))
  else pure true

/-- Raw four-section form exchanged with the report loader and
`get_raw_data`/`__set_raw_data`; a `None` section is represented by
`Option.none`. -/
structure RawData : Type where
  nmaprun : Option PyObj
  scaninfo : Option PyObj
  hostsR : Option (List NmapHost)
  runstats : Option PyObj
  deriving DecidableEq

/-- Value object for one full scan run, mirroring class `NmapReport`. -/
structure NmapReport : Type where
  nmaprunO : Option PyObj
  scaninfoO : Option PyObj
  hostsO : Option (List NmapHost)
  runstatsO : Option PyObj
  deriving DecidableEq

/-- Constructor `NmapReport.__init__`: without raw data the four sections are
empty (but present) containers; with raw data, `__set_raw_data` copies the
four sections as given. -/
def NmapReport.make : Option RawData → NmapReport
  | Option.none => ⟨some (.dict []), some (.dict []), some [], some (.dict [])⟩
  | some rd => ⟨rd.nmaprun, rd.scaninfo, rd.hostsR, rd.runstats⟩

/-- Method `NmapReport.get_raw_data`: the four sections under their fixed
keys. -/
def NmapReport.get_raw_data (r : NmapReport) : RawData :=
  ⟨r.nmaprunO, r.scaninfoO, r.hostsO, r.runstatsO⟩

/-- Method `NmapReport.__is_consistent`: the raw form carries the four
expected keys (always true of `get_raw_data`) and none of the four section
values is `None`. -/
def NmapReport.isConsistent (r : NmapReport) : Bool :=
  r.nmaprunO.isSome && r.scaninfoO.isSome && r.hostsO.isSome && r.runstatsO.isSome

/-- Property `NmapReport.hosts_up`: `self._runstats['hosts']['up']` when the
run-stats container holds `'hosts'`, the empty string otherwise; the
membership test itself raises `TypeError` on a `None` run-stats section. -/
def NmapReport.hosts_up (r : NmapReport) : Except PyErr PyObj :=
  match r.runstatsO with
  | Option.none => .error .typeError
  | some rs => do
      let c ← pyInOp "hosts" rs
      if c then do
        let hv ← pySubscript rs "hosts"
        pySubscript hv "up"
      else pure (.str "")

/-- Property `NmapReport.hosts_down`: as `hosts_up` with key `'down'`. -/
def NmapReport.hosts_down (r : NmapReport) : Except PyErr PyObj :=
  match r.runstatsO with
  | Option.none => .error .typeError
  | some rs => do
      let c ← pyInOp "hosts" rs
      if c then do
        let hv ← pySubscript rs "hosts"
        pySubscript hv "down"
      else pure (.str "")

/-- Property `NmapReport.hosts_total`: as `hosts_up` with key `'total'`. -/
def NmapReport.hosts_total (r : NmapReport) : Except PyErr PyObj :=
  match r.runstatsO with
  | Option.none => .error .typeError
  | some rs => do
      let c ← pyInOp "hosts" rs
      if c then do
        let hv ← pySubscript rs "hosts"
        pySubscript hv "total"
      else pure (.str "")

/-- One entry of `NmapReport.get_dict`:
`("%s.%s" % (h.__class__.__name__, str(h.id)), hash(h))`. -/
def NmapReport.hostEntry (hp : PyHashP) (h : NmapHost) :
    Except PyErr (String × PyObj) := do
  let iv ← h.id
  let hh ← NmapHost.hashPy hp h
  pure ("NmapHost." ++ pyStrOf iv, .int (Int.ofNat hh))

/-- Method `NmapReport.get_dict`: the dictionary mapping each owned host's
rendered identity to its hash, updated with the three host counters;
iterating a `None` host list raises `TypeError`. -/
def NmapReport.get_dict (hp : PyHashP) (r : NmapReport) :
    Except PyErr (List (String × PyObj)) :=
  match r.hostsO with
  | Option.none => .error .typeError
  | some hs => do
      let entries ← hs.mapM (NmapReport.hostEntry hp)
      let hu ← r.hosts_up
      let hd ← r.hosts_down
      let ht ← r.hosts_total
      pure (pyDictUpdate (pyDictOf entries)
        [("hosts_up", hu), ("hosts_down", hd), ("hosts_total", ht)])

/-- Result of `NmapReport.diff`: either a computed diff or the bare empty
`set()` returned when a report fails the consistency check. -/
inductive ReportDiffResult : Type where
  | result (d : NmapDiff) : ReportDiffResult
  | emptySet : ReportDiffResult
  deriving DecidableEq

/-- Method `NmapReport.diff`: guarded by the consistency check on both
reports; when both pass, the diff is computed over the two comparison
substrates, otherwise the empty set is returned. -/
def NmapReport.diff (hp : PyHashP) (a b : NmapReport) :
    Except PyErr ReportDiffResult :=
  if a.isConsistent && b.isConsistent then do
    let d1 ← NmapReport.get_dict hp a
    let d2 ← NmapReport.get_dict hp b
    pure (.result (mkNmapDiff d1 d2))
  else pure .emptySet

/-- Membership in the accumulator-based deduplication. -/
theorem mem_dedupFAux {β : Type} [DecidableEq β] (seen l : List β) (a : β) :
    a ∈ dedupFAux seen l ↔ a ∈ l ∧ a ∉ seen := by
  induction l generalizing seen with
  | nil => simp [dedupFAux]
  | cons x xs ih =>
    by_cases hx : x ∈ seen
    · rw [dedupFAux, if_pos hx, ih]
      constructor
      · rintro ⟨h1, h2⟩
        exact ⟨List.mem_cons_of_mem _ h1, h2⟩
      · rintro ⟨h1, h2⟩
        rcases List.mem_cons.mp h1 with h1 | h1
        · exact absurd (h1 ▸ hx) h2
        · exact ⟨h1, h2⟩
    · rw [dedupFAux, if_neg hx]
      simp only [List.mem_cons, ih, List.mem_cons, not_or]
      constructor
      · rintro (rfl | ⟨h1, h2, h3⟩)
        · exact ⟨Or.inl rfl, hx⟩
        · exact ⟨Or.inr h1, h3⟩
      · rintro ⟨rfl | h1, h2⟩
        · exact Or.inl rfl
        · by_cases hax : a = x
          · exact Or.inl hax
          · exact Or.inr ⟨h1, hax, h2⟩

/-- The accumulator-based deduplication yields a list without duplicates. -/
theorem nodup_dedupFAux {β : Type} [DecidableEq β] (seen l : List β) :
    (dedupFAux seen l).Nodup := by
  induction l generalizing seen with
  | nil => simp [dedupFAux]
  | cons x xs ih =>
    by_cases hx : x ∈ seen
    · rw [dedupFAux, if_pos hx]
      exact ih seen
    · rw [dedupFAux, if_neg hx]
      refine List.nodup_cons.mpr ⟨fun hmem => ?_, ih (x :: seen)⟩
      exact ((mem_dedupFAux _ _ _).mp hmem).2 (List.mem_cons_self _ _)

/-- Deduplication preserves membership. -/
theorem mem_dedupF {β : Type} [DecidableEq β] (l : List β) (a : β) :
    a ∈ dedupF l ↔ a ∈ l := by
  rw [dedupF, mem_dedupFAux]
  simp

/-- Deduplicated lists carry no duplicates. -/
theorem nodup_dedupF {β : Type} [DecidableEq β] (l : List β) : (dedupF l).Nodup :=
  nodup_dedupFAux [] l

/-- Deduplications of permuted lists are permuted. -/
theorem dedupF_perm {β : Type} [DecidableEq β] {l l' : List β} (h : l.Perm l') :
    (dedupF l).Perm (dedupF l') :=
  (List.perm_ext_iff_of_nodup (nodup_dedupF l) (nodup_dedupF l')).mpr
    (fun a => by rw [mem_dedupF, mem_dedupF]; exact h.mem_iff)

/-- Exclusive-or folds agree on permuted lists. -/
theorem xorList_perm {l l' : List Nat} (h : l.Perm l') : xorList l = xorList l' := by
  induction h with
  | nil => rfl
  | cons x _ ih =>
      simp only [xorList, List.foldr_cons] at *
      rw [ih]
  | swap x y t =>
      simp only [xorList, List.foldr_cons]
      rw [← Nat.xor_assoc, Nat.xor_comm y x, Nat.xor_assoc]
  | trans _ _ ih1 ih2 => exact ih1.trans ih2

/-- The frozenset hash model is invariant under permutation of the underlying
list. -/
theorem fsHash_perm {β : Type} [DecidableEq β] (h : β → Nat) {l l' : List β}
    (hp : l.Perm l') : fsHash h l = fsHash h l' := by
  unfold fsHash
  rw [xorList_perm ((dedupF_perm hp).map h), (dedupF_perm hp).length_eq]

/-- A lookup misses exactly when the key is absent. -/
theorem lookup_eq_none_iff {V : Type} (d : List (String × V)) (k : String) :
    d.lookup k = Option.none ↔ k ∉ dictKeys d := by
  induction d with
  | nil => simp [dictKeys]
  | cons kv t ih =>
    obtain ⟨a, b⟩ := kv
    cases hba : k == a with
    | true =>
        have : k = a := eq_of_beq hba
        subst this
        simp [List.lookup, hba, dictKeys]
    | false =>
        have hk : k ≠ a := fun hh => by simp [hh] at hba
        simp only [List.lookup, hba, dictKeys, List.map_cons, List.mem_cons, not_or]
        rw [dictKeys] at ih
        rw [ih]
        simp [hk]

/-- A successful lookup returns an entry of the list. -/
theorem lookup_mem {V : Type} {d : List (String × V)} {k : String} {v : V}
    (h : d.lookup k = some v) : (k, v) ∈ d := by
  induction d with
  | nil => simp [List.lookup] at h
  | cons kv t ih =>
    obtain ⟨a, b⟩ := kv
    cases hba : k == a with
    | true =>
        have hk : k = a := eq_of_beq hba
        subst hk
        simp only [List.lookup, hba] at h
        cases h
        exact List.mem_cons_self _ _
    | false =>
        simp only [List.lookup, hba] at h
        exact List.mem_cons_of_mem _ (ih h)

/-- Under duplicate-free keys, every entry is found by lookup. -/
theorem lookup_of_mem_nodup {V : Type} {d : List (String × V)} {k : String} {v : V}
    (hnd : (dictKeys d).Nodup) (h : (k, v) ∈ d) : d.lookup k = some v := by
  induction d with
  | nil => simp at h
  | cons kv t ih =>
    obtain ⟨a, b⟩ := kv
    rcases List.mem_cons.mp h with heq | ht
    · cases heq
      simp [List.lookup]
    · have hka : k ≠ a := by
        rintro rfl
        exact (List.nodup_cons.mp hnd).1 (List.mem_map.mpr ⟨(k, v), ht, rfl⟩)
      have hba : (k == a) = false := by
        simp [hka]
      simp only [List.lookup, hba]
      exact ih (List.nodup_cons.mp hnd).2 ht

/-- Under duplicate-free keys, lookups agree across a permutation. -/
theorem lookup_perm_of_nodup {V : Type} {d d' : List (String × V)}
    (hperm : d.Perm d') (hnd : (dictKeys d).Nodup) (k : String) :
    d.lookup k = d'.lookup k := by
  have hnd' : (dictKeys d').Nodup := ((hperm.map Prod.fst).nodup hnd : _)
  cases hl : d.lookup k with
  | none =>
      have : k ∉ dictKeys d := (lookup_eq_none_iff d k).mp hl
      have : k ∉ dictKeys d' := fun hm => this ((hperm.map Prod.fst).mem_iff.mpr hm)
      exact ((lookup_eq_none_iff d' k).mpr this).symm
  | some v =>
      exact ((lookup_of_mem_nodup hnd' (hperm.mem_iff.mp (lookup_mem hl)))).symm

/-- Lookup over an append tries the left list first. -/
theorem lookup_append {V : Type} (l1 l2 : List (String × V)) (k : String) :
    (l1 ++ l2).lookup k = (l1.lookup k).or (l2.lookup k) := by
  induction l1 with
  | nil => simp [List.lookup]
  | cons kv t ih =>
    obtain ⟨a, b⟩ := kv
    cases hba : k == a with
    | true => simp [List.lookup, hba, Option.or]
    | false =>
        simp only [List.cons_append, List.lookup, hba]
        exact ih

/-- Inserting a fresh key appends the new entry. -/
theorem pyDictInsert_fresh {V : Type} (d : List (String × V)) (k : String) (v : V)
    (h : k ∉ dictKeys d) : pyDictInsert d k v = d ++ [(k, v)] := by
  rw [pyDictInsert, if_neg]
  intro hany
  rcases List.any_eq_true.mp hany with ⟨kv, hm, he⟩
  exact h (List.mem_map.mpr ⟨kv, hm, eq_of_beq he⟩)

/-- Folding fresh-key insertions over an accumulator appends the entries. -/
theorem foldl_insert_fresh {V : Type} (l : List (String × V)) :
    ∀ acc : List (String × V), (∀ kv ∈ l, kv.1 ∉ dictKeys acc) → (dictKeys l).Nodup →
      l.foldl (fun d kv => pyDictInsert d kv.1 kv.2) acc = acc ++ l := by
  induction l with
  | nil => intro acc _ _; simp
  | cons kv t ih =>
    intro acc hfresh hnd
    have h1 : pyDictInsert acc kv.1 kv.2 = acc ++ [kv] := by
      rw [pyDictInsert_fresh acc kv.1 kv.2 (hfresh kv (List.mem_cons_self _ _))]
    simp only [List.foldl_cons, h1]
    rw [ih (acc ++ [kv]) ?_ (List.nodup_cons.mp (by simpa [dictKeys] using hnd)).2]
    · simp
    · intro kv' hm
      rw [dictKeys, List.map_append]
      simp only [List.mem_append, not_or]
      refine ⟨hfresh kv' (List.mem_cons_of_mem _ hm), ?_⟩
      simp only [List.map_cons, List.map_nil, List.mem_singleton]
      intro hkk
      have : kv'.1 ∈ List.map Prod.fst t := List.mem_map.mpr ⟨kv', hm, rfl⟩
      rw [hkk] at this
      exact (List.nodup_cons.mp (by simpa [dictKeys] using hnd)).1 this

/-- On duplicate-free keys, `dict(pairs)` keeps the pair list unchanged. -/
theorem pyDictOf_eq_self {V : Type} (l : List (String × V))
    (hnd : (dictKeys l).Nodup) : pyDictOf l = l := by
  rw [pyDictOf, foldl_insert_fresh l [] (by simp [dictKeys]) hnd]
  simp

/-- Updating with fresh, duplicate-free keys appends the update entries. -/
theorem pyDictUpdate_fresh {V : Type} (d u : List (String × V))
    (hfresh : ∀ kv ∈ u, kv.1 ∉ dictKeys d) (hnd : (dictKeys u).Nodup) :
    pyDictUpdate d u = d ++ u :=
  foldl_insert_fresh u d hfresh hnd

/-- Keys of an appended dictionary. -/
theorem dictKeys_append {V : Type} (l1 l2 : List (String × V)) :
    dictKeys (l1 ++ l2) = dictKeys l1 ++ dictKeys l2 := by
  simp [dictKeys]

/-- `List.contains` on strings agrees with membership. -/
theorem contains_iff_mem (l : List String) (k : String) :
    l.contains k = true ↔ k ∈ l := by
  simp [List.contains_iff_exists_mem_beq, beq_iff_eq]

/-- Both dictionaries seeing the same keys with the same values yields an
empty classification apart from `unchanged`. -/
theorem mkNmapDiff_empty_of (d1 d2 : List (String × PyObj))
    (hmem : ∀ k, k ∈ dictKeys d1 ↔ k ∈ dictKeys d2)
    (hlook : ∀ k, d1.lookup k = d2.lookup k) :
    (mkNmapDiff d1 d2).added = [] ∧ (mkNmapDiff d1 d2).removed = [] ∧
      (mkNmapDiff d1 d2).changed = [] := by
  refine ⟨?_, ?_, ?_⟩
  · rw [mkNmapDiff]
    rw [List.filter_eq_nil_iff]
    intro k hk
    simp [contains_iff_mem, (hmem k).mpr hk]
  · rw [mkNmapDiff]
    rw [List.filter_eq_nil_iff]
    intro k hk
    simp [contains_iff_mem, (hmem k).mp hk]
  · rw [mkNmapDiff]
    rw [List.filter_eq_nil_iff]
    intro k hk
    simp [hlook k]

/-- Diffing a dictionary against itself classifies nothing as added, removed
or changed. -/
theorem mkNmapDiff_self (d : List (String × PyObj)) :
    (mkNmapDiff d d).added = [] ∧ (mkNmapDiff d d).removed = [] ∧
      (mkNmapDiff d d).changed = [] :=
  mkNmapDiff_empty_of d d (fun _ => Iff.rfl) (fun _ => rfl)

/-- Association lists with identical duplicate-free key sequences and
pointwise-equal lookups are equal. -/
theorem assoc_ext {V : Type} :
    ∀ (d1 d2 : List (String × V)), dictKeys d1 = dictKeys d2 →
      (dictKeys d1).Nodup → (∀ k ∈ dictKeys d1, d1.lookup k = d2.lookup k) →
      d1 = d2
  | [], [], _, _, _ => rfl
  | [], (k, v) :: t, hk, _, _ => by simp [dictKeys] at hk
  | (k, v) :: t, [], hk, _, _ => by simp [dictKeys] at hk
  | (k, v) :: t1, (k', v') :: t2, hk, hnd, hlook => by
    simp only [dictKeys, List.map_cons, List.cons.injEq] at hk
    obtain ⟨rfl, hkt⟩ := hk
    have hv : v = v' := by
      have := hlook k (by simp [dictKeys])
      simpa [List.lookup] using this
    subst hv
    have hnd' : (dictKeys t1).Nodup := (List.nodup_cons.mp (by simpa [dictKeys] using hnd)).2
    have hnotin : k ∉ dictKeys t1 := (List.nodup_cons.mp (by simpa [dictKeys] using hnd)).1
    have ht : t1 = t2 := by
      refine assoc_ext t1 t2 hkt hnd' ?_
      intro k' hk'
      have hne : k' ≠ k := fun hh => hnotin (hh ▸ hk')
      have hba : (k' == k) = false := by simp [hne]
      have := hlook k' (by simp [dictKeys]; right; simpa [dictKeys] using hk')
      simpa [List.lookup, hba] using this
    rw [ht]

/-- With identical duplicate-free key sequences, an empty `changed` set means
the two dictionaries are equal. -/
theorem mkNmapDiff_changed_nil_iff (d1 d2 : List (String × PyObj))
    (hk : dictKeys d1 = dictKeys d2) (hnd : (dictKeys d1).Nodup) :
    (mkNmapDiff d1 d2).changed = [] ↔ d1 = d2 := by
  constructor
  · intro hzero
    refine assoc_ext d1 d2 hk hnd ?_
    intro k hkm
    rw [mkNmapDiff] at hzero
    rw [List.filter_eq_nil_iff] at hzero
    have := hzero k hkm
    simp only [Bool.and_eq_true, Bool.not_eq_true', not_and] at this
    have hcont : (dictKeys d2).contains k = true :=
      (contains_iff_mem _ _).mpr (hk ▸ hkm)
    have := this hcont
    simpa using this
  · rintro rfl
    exact (mkNmapDiff_self d1).2.2

/-- The keys of a service's comparison substrate, in order. -/
theorem svc_dictKeys (s : NmapService) :
    dictKeys s.get_dict = ["id", "port", "protocol", "banner", "service", "state"] := rfl

/-- A zero changed count between two services says exactly that their
comparison substrates coincide. -/
theorem NmapService.changed_zero_iff (a b : NmapService) :
    a.changed b = 0 ↔ a.get_dict = b.get_dict := by
  rw [NmapService.changed, NmapService.diff, List.length_eq_zero]
  exact mkNmapDiff_changed_nil_iff _ _ ((svc_dictKeys a).trans (svc_dictKeys b).symm)
    (by rw [svc_dictKeys]; decide)

/-- Python equality of services coincides with equality of their
fingerprints. -/
theorem NmapService.eqPy_iff_fp (a b : NmapService) :
    a.eqPy b = true ↔ a.fp = b.fp := by
  rw [NmapService.eqPy, NmapService.fp, NmapService.fp]
  simp only [Bool.and_eq_true, beq_iff_eq, Nat.beq_eq_true_eq, Prod.mk.injEq]
  rw [NmapService.changed_zero_iff]

/-- The service hash is a function of the service fingerprint. -/
theorem NmapService.svcHash_eq_fp (hp : PyHashP) (s : NmapService) :
    s.svcHash hp = svcHashOfFp hp s.fp := by
  rw [NmapService.svcHash, svcHashOfFp, NmapService.fp]
  cases hs : s.state <;> cases hv : s.service <;>
    simp [NmapService.get_dict, List.lookup, optToPy, pyHashT, hashOptStr, hs, hv,
      NmapService.idT]

/-- Character multiset of a space-joined list: the characters of the parts
plus one space per junction. -/
theorem joinSp_data_ms : ∀ l : List String,
    ((joinSp l).data : Multiset Char) =
      (l.map (fun s => (s.data : Multiset Char))).sum +
        (l.length - 1) • ({' '} : Multiset Char)
  | [] => by simp [joinSp]
  | [x] => by simp [joinSp]
  | x :: y :: t => by
    have ih := joinSp_data_ms (y :: t)
    show ((x ++ " " ++ joinSp (y :: t)).data : Multiset Char) = _
    rw [String.data_append, String.data_append]
    rw [show ((x.data ++ " ".data ++ (joinSp (y :: t)).data : List Char) : Multiset Char) =
      ((x.data : Multiset Char) + (" ".data : List Char) + ((joinSp (y :: t)).data : Multiset Char)) from by
        push_cast
        rfl]
    rw [ih]
    simp only [List.map_cons, List.sum_cons, List.length_cons,
      Nat.add_sub_cancel, Nat.succ_sub_one]
    have hsp : (" ".data : Multiset Char) = ({' '} : Multiset Char) := rfl
    rw [hsp, succ_nsmul]
    abel

/-- Space-joins of permuted hostname lists have permuted character lists. -/
theorem joined_perm {hn hn' : List String} (h : hn.Perm hn') :
    ((joinSp hn).data).Perm ((joinSp hn').data) := by
  rw [← Multiset.coe_eq_coe, joinSp_data_ms, joinSp_data_ms]
  rw [List.Perm.sum_eq (h.map (fun s => (s.data : Multiset Char))), h.length_eq]

/-- The host hash is invariant under permutation of the services list. -/
theorem NmapHost.hashPy_services_perm (hp : PyHashP) (h : NmapHost)
    (sv' : List NmapService) (hperm : h.servicesL.Perm sv') :
    NmapHost.hashPy hp { h with servicesL := sv' } = NmapHost.hashPy hp h := by
  have hfs : fsHash (svcHashOfFp hp) (sv'.map NmapService.fp) =
      fsHash (svcHashOfFp hp) (h.servicesL.map NmapService.fp) :=
    fsHash_perm _ (hperm.symm.map NmapService.fp)
  simp only [NmapHost.hashPy, NmapHost.status, NmapHost.address, NmapHost.joined, hfs]

/-- The host hash is invariant under permutation of the hostnames list. -/
theorem NmapHost.hashPy_hostnames_perm (hp : PyHashP) (h : NmapHost)
    (hn' : List String) (hperm : h.hostnamesL.Perm hn') :
    NmapHost.hashPy hp { h with hostnamesL := hn' } = NmapHost.hashPy hp h := by
  have hfs : fsHash hp.hchar (joinSp hn').data =
      fsHash hp.hchar (joinSp h.hostnamesL).data :=
    fsHash_perm _ (joined_perm hperm.symm)
  simp only [NmapHost.hashPy, NmapHost.status, NmapHost.address, NmapHost.joined, hfs]

/-- Strings with distinct first characters stay distinct under appending to
the longer prefix. -/
theorem string_append_ne_of_head (p q : String) (a b : Char) (ta tb : List Char)
    (hp : p.data = a :: ta) (hq : q.data = b :: tb) (hne : a ≠ b) (x : String) :
    p ++ x ≠ q := by
  intro h
  have h2 := congrArg String.data h
  rw [String.data_append, hp, hq, List.cons_append] at h2
  injection h2 with h3 _
  exact hne h3

/-- Service keys in a host's comparison substrate never collide with the
three fixed field keys. -/
theorem svcKey_ne_fixed (s : NmapService) :
    NmapHost.svcKey s ≠ "address" ∧ NmapHost.svcKey s ≠ "status" ∧
      NmapHost.svcKey s ≠ "hostnames" := by
  refine ⟨?_, ?_, ?_⟩ <;>
    exact string_append_ne_of_head "NmapService." _ 'N' _ _ _ rfl rfl (by decide) _

/-- Keys of the service part of a host's comparison substrate. -/
theorem host_base_keys (hp : PyHashP) (l : List NmapService) :
    dictKeys (l.map (fun s => (NmapHost.svcKey s, PyObj.int (Int.ofNat (s.svcHash hp))))) =
      l.map NmapHost.svcKey := by
  simp [dictKeys, List.map_map]

/-- Closed form of `NmapHost.get_dict` when the identity fields are present
and the service keys are duplicate-free. -/
theorem hostGetDict_closed (hp : PyHashP) (h : NmapHost) (av sv : PyObj)
    (ha : h.address = .ok av) (hs : h.status = .ok sv)
    (hnd : (h.servicesL.map NmapHost.svcKey).Nodup) :
    NmapHost.get_dict hp h = .ok
      ((h.servicesL.map (fun s => (NmapHost.svcKey s, PyObj.int (Int.ofNat (s.svcHash hp))))) ++
        [("address", av), ("status", sv), ("hostnames", .str h.joined)]) := by
  rw [NmapHost.get_dict, ha, hs]
  show Except.ok (pyDictUpdate (pyDictOf _) _) = _
  rw [pyDictOf_eq_self _ (by rw [host_base_keys]; exact hnd)]
  rw [pyDictUpdate_fresh]
  · intro kv hm
    rw [host_base_keys]
    intro hmem
    rcases List.mem_map.mp hmem with ⟨s, _, hk⟩
    simp only [List.mem_cons, List.not_mem_nil, or_false] at hm
    rcases hm with rfl | rfl | rfl
    · exact (svcKey_ne_fixed s).1 hk
    · exact (svcKey_ne_fixed s).2.1 hk
    · exact (svcKey_ne_fixed s).2.2 hk
  · show (["address", "status", "hostnames"] : List String).Nodup
    decide

/-- Diffing a host against itself with permuted services classifies nothing
as added, removed or changed, provided each `(protocol, port)` identity
renders a distinct key. -/
theorem host_diff_perm_empty (hp : PyHashP) (h : NmapHost) (sv' : List NmapService)
    (hperm : h.servicesL.Perm sv')
    (hnd : (h.servicesL.map NmapHost.svcKey).Nodup) (d : NmapDiff)
    (hok : NmapHost.diff hp { h with servicesL := sv' } h = .ok d) :
    d.added = [] ∧ d.removed = [] ∧ d.changed = [] := by
  cases ha : h.address with
  | error e =>
      rw [NmapHost.diff] at hok
      have hgd : NmapHost.get_dict hp { h with servicesL := sv' } = .error e := by
        rw [NmapHost.get_dict]
        show (h.address >>= _) = _
        rw [ha]
        rfl
      rw [hgd] at hok
      cases hok
  | ok av =>
    cases hs : h.status with
    | error e =>
        rw [NmapHost.diff] at hok
        have hgd : NmapHost.get_dict hp { h with servicesL := sv' } = .error e := by
          rw [NmapHost.get_dict]
          show (h.address >>= _) = _
          rw [ha]
          show (h.status >>= _) = _
          rw [hs]
          rfl
        rw [hgd] at hok
        cases hok
    | ok sv =>
      have hnd' : (sv'.map NmapHost.svcKey).Nodup := (hperm.map NmapHost.svcKey).nodup hnd
      have h1 := hostGetDict_closed hp { h with servicesL := sv' } av sv ha hs hnd'
      have h2 := hostGetDict_closed hp h av sv ha hs hnd
      rw [NmapHost.diff, h1, h2] at hok
      have hd : d = mkNmapDiff
          ((sv'.map (fun s => (NmapHost.svcKey s, PyObj.int (Int.ofNat (s.svcHash hp))))) ++
            [("address", av), ("status", sv), ("hostnames", .str h.joined)])
          ((h.servicesL.map (fun s => (NmapHost.svcKey s, PyObj.int (Int.ofNat (s.svcHash hp))))) ++
            [("address", av), ("status", sv), ("hostnames", .str h.joined)]) := by
        cases hok
        rfl
      subst hd
      have hpm := hperm.map (fun s => (NmapHost.svcKey s, PyObj.int (Int.ofNat (s.svcHash hp))))
      refine mkNmapDiff_empty_of _ _ ?_ ?_
      · intro k
        rw [dictKeys_append, dictKeys_append]
        rw [List.mem_append, List.mem_append]
        rw [host_base_keys, host_base_keys]
        constructor
        · rintro (hm | hm)
          · exact Or.inl ((hperm.map NmapHost.svcKey).mem_iff.mpr hm)
          · exact Or.inr hm
        · rintro (hm | hm)
          · exact Or.inl ((hperm.map NmapHost.svcKey).mem_iff.mp hm)
          · exact Or.inr hm
      · intro k
        rw [lookup_append, lookup_append]
        rw [lookup_perm_of_nodup hpm.symm (by rw [host_base_keys]; exact hnd') k]

/-- Bind on a successful `Except` computation. -/
theorem except_ok_bind {ε α β : Type} (a : α) (f : α → Except ε β) :
    (Except.ok a >>= f : Except ε β) = f a := rfl

/-- Bind on a failed `Except` computation. -/
theorem except_error_bind {ε α β : Type} (e : ε) (f : α → Except ε β) :
    ((Except.error e : Except ε α) >>= f : Except ε β) = .error e := rfl

/-- A successful `mapM` over a permuted list succeeds with a permuted result
list. -/
theorem mapM_perm_ok {α β : Type} (f : α → Except PyErr β) {l l' : List α}
    (hperm : l.Perm l') :
    ∀ {es : List β}, l.mapM f = .ok es → ∃ es', l'.mapM f = .ok es' ∧ es.Perm es' := by
  induction hperm with
  | nil => exact fun h => ⟨_, h, List.Perm.refl _⟩
  | cons x hsub ih =>
      rename_i l1 l2
      intro es h
      rw [List.mapM_cons] at h
      cases hfx : f x with
      | error e => rw [hfx, except_error_bind] at h; exact Except.noConfusion h
      | ok b =>
          rw [hfx, except_ok_bind] at h
          cases hml : List.mapM f l1 with
          | error e =>
              rw [hml, except_error_bind] at h
              exact Except.noConfusion h
          | ok bs =>
              rw [hml, except_ok_bind] at h
              have hes : es = b :: bs := by
                cases h
                rfl
              obtain ⟨es2, he2, hp2⟩ := ih hml
              refine ⟨b :: es2, ?_, by rw [hes]; exact hp2.cons b⟩
              rw [List.mapM_cons, hfx, except_ok_bind, he2, except_ok_bind]
              rfl
  | swap x y l =>
      intro es h
      rw [List.mapM_cons] at h
      cases hfy : f y with
      | error e => rw [hfy, except_error_bind] at h; exact Except.noConfusion h
      | ok by_ =>
          rw [hfy, except_ok_bind, List.mapM_cons] at h
          cases hfx : f x with
          | error e => rw [hfx, except_error_bind] at h; exact Except.noConfusion h
          | ok bx =>
              rw [hfx, except_ok_bind] at h
              cases hml : List.mapM f l with
              | error e =>
                  rw [hml, except_error_bind] at h
                  exact Except.noConfusion h
              | ok bs =>
                  rw [hml, except_ok_bind] at h
                  have hes : es = by_ :: bx :: bs := by
                    cases h
                    rfl
                  refine ⟨bx :: by_ :: bs, ?_, ?_⟩
                  · rw [List.mapM_cons, hfx, except_ok_bind, List.mapM_cons, hfy,
                      except_ok_bind, hml, except_ok_bind]
                    rfl
                  · rw [hes]
                    exact List.Perm.swap bx by_ bs
  | trans _ _ ih1 ih2 =>
      intro es h
      obtain ⟨e1, he1, hp1⟩ := ih1 h
      obtain ⟨e2, he2, hp2⟩ := ih2 he1
      exact ⟨e2, he2, hp1.trans hp2⟩

/-- Every key produced by `NmapReport.hostEntry` starts with the class
qualifier. -/
theorem hostEntry_key (hp : PyHashP) (h : NmapHost) (e : String × PyObj)
    (he : NmapReport.hostEntry hp h = .ok e) : ∃ t, e.1 = "NmapHost." ++ t := by
  rw [NmapReport.hostEntry] at he
  cases hid : h.id with
  | error er => rw [hid, except_error_bind] at he; exact Except.noConfusion he
  | ok iv =>
      rw [hid, except_ok_bind] at he
      cases hhash : NmapHost.hashPy hp h with
      | error er => rw [hhash, except_error_bind] at he; exact Except.noConfusion he
      | ok n =>
          rw [hhash, except_ok_bind] at he
          cases he
          exact ⟨pyStrOf iv, rfl⟩

/-- Every key of a successful host-entry `mapM` starts with the class
qualifier. -/
theorem mapM_hostEntry_keys (hp : PyHashP) :
    ∀ (hs : List NmapHost) (es : List (String × PyObj)),
      hs.mapM (NmapReport.hostEntry hp) = .ok es →
      ∀ e ∈ es, ∃ t, e.1 = "NmapHost." ++ t := by
  intro hs
  induction hs with
  | nil =>
      intro es h e he
      have : es = [] := by
        rw [List.mapM_nil] at h
        cases h
        rfl
      rw [this] at he
      cases he
  | cons x t ih =>
      intro es h e he
      rw [List.mapM_cons] at h
      cases hfx : NmapReport.hostEntry hp x with
      | error er => rw [hfx, except_error_bind] at h; exact Except.noConfusion h
      | ok b =>
          rw [hfx, except_ok_bind] at h
          cases hml : t.mapM (NmapReport.hostEntry hp) with
          | error er => rw [hml, except_error_bind] at h; exact Except.noConfusion h
          | ok bs =>
              rw [hml, except_ok_bind] at h
              have hes : es = b :: bs := by
                cases h
                rfl
              rw [hes] at he
              rcases List.mem_cons.mp he with rfl | he
              · exact hostEntry_key hp x e hfx
              · exact ih bs hml e he

/-- Closed form of `NmapReport.get_dict` when the parts evaluate. -/
theorem reportGetDict_closed (hp : PyHashP) (r : NmapReport) (hs : List NmapHost)
    (es : List (String × PyObj)) (u dn tt : PyObj)
    (hh : r.hostsO = some hs) (hes : hs.mapM (NmapReport.hostEntry hp) = .ok es)
    (hnd : (dictKeys es).Nodup)
    (hu : r.hosts_up = .ok u) (hdn : r.hosts_down = .ok dn)
    (htt : r.hosts_total = .ok tt) :
    NmapReport.get_dict hp r = .ok
      (es ++ [("hosts_up", u), ("hosts_down", dn), ("hosts_total", tt)]) := by
  rw [NmapReport.get_dict, hh]
  show (hs.mapM (NmapReport.hostEntry hp) >>= _) = _
  rw [hes, except_ok_bind, hu, except_ok_bind, hdn, except_ok_bind, htt, except_ok_bind]
  show Except.ok (pyDictUpdate (pyDictOf es) _) = _
  rw [pyDictOf_eq_self es hnd]
  rw [pyDictUpdate_fresh]
  · intro kv hm hmem
    rcases List.mem_map.mp hmem with ⟨e, hein, hk⟩
    obtain ⟨t, ht⟩ := mapM_hostEntry_keys hp hs es hes e hein
    simp only [List.mem_cons, List.not_mem_nil, or_false] at hm
    rcases hm with rfl | rfl | rfl
    · exact string_append_ne_of_head "NmapHost." "hosts_up" 'N' 'h' _ _ rfl rfl
        (by decide) t (by rw [← ht]; exact hk)
    · exact string_append_ne_of_head "NmapHost." "hosts_down" 'N' 'h' _ _ rfl rfl
        (by decide) t (by rw [← ht]; exact hk)
    · exact string_append_ne_of_head "NmapHost." "hosts_total" 'N' 'h' _ _ rfl rfl
        (by decide) t (by rw [← ht]; exact hk)
  · show (["hosts_up", "hosts_down", "hosts_total"] : List String).Nodup
    decide

/-- Diffing a report against itself with permuted hosts computes a result
classifying nothing as added, removed or changed, provided the rendered host
identities are duplicate-free. -/
theorem report_diff_perm_empty (hp : PyHashP) (r : NmapReport) (hs hs' : List NmapHost)
    (hh : r.hostsO = some hs) (hperm : hs.Perm hs')
    (es : List (String × PyObj)) (hes : hs.mapM (NmapReport.hostEntry hp) = .ok es)
    (hnd : (dictKeys es).Nodup) (hcons : r.isConsistent = true)
    (u dn tt : PyObj) (hu : r.hosts_up = .ok u) (hdn : r.hosts_down = .ok dn)
    (htt : r.hosts_total = .ok tt) :
    ∃ d, NmapReport.diff hp { r with hostsO := some hs' } r = .ok (.result d) ∧
      d.added = [] ∧ d.removed = [] ∧ d.changed = [] := by
  obtain ⟨es', hes', hpe⟩ := mapM_perm_ok _ hperm hes
  have hnd' : (dictKeys es').Nodup := (hpe.map Prod.fst).nodup hnd
  have hg2 : NmapReport.get_dict hp r = .ok
      (es ++ [("hosts_up", u), ("hosts_down", dn), ("hosts_total", tt)]) :=
    reportGetDict_closed hp r hs es u dn tt hh hes hnd hu hdn htt
  have hg1 : NmapReport.get_dict hp { r with hostsO := some hs' } = .ok
      (es' ++ [("hosts_up", u), ("hosts_down", dn), ("hosts_total", tt)]) :=
    reportGetDict_closed hp { r with hostsO := some hs' } hs' es' u dn tt rfl hes'
      hnd' hu hdn htt
  have hcons' : NmapReport.isConsistent { r with hostsO := some hs' } = true := by
    rw [NmapReport.isConsistent] at hcons ⊢
    simp only [Bool.and_eq_true] at hcons
    simp [hcons.1.1.1, hcons.1.1.2, hcons.2]
  refine ⟨mkNmapDiff
      (es' ++ [("hosts_up", u), ("hosts_down", dn), ("hosts_total", tt)])
      (es ++ [("hosts_up", u), ("hosts_down", dn), ("hosts_total", tt)]), ?_, ?_⟩
  · rw [NmapReport.diff, hcons', hcons]
    show (NmapReport.get_dict hp _ >>= _) = _
    rw [hg1, except_ok_bind, hg2, except_ok_bind]
    rfl
  · have hkeys := mapM_hostEntry_keys hp hs es hes
    refine mkNmapDiff_empty_of _ _ ?_ ?_
    · intro k
      rw [dictKeys_append, dictKeys_append, List.mem_append, List.mem_append]
      constructor
      · rintro (hm | hm)
        · exact Or.inl ((hpe.map Prod.fst).mem_iff.mpr hm)
        · exact Or.inr hm
      · rintro (hm | hm)
        · exact Or.inl ((hpe.map Prod.fst).mem_iff.mp hm)
        · exact Or.inr hm
    · intro k
      rw [lookup_append, lookup_append]
      rw [lookup_perm_of_nodup hpe hnd k]

/-- Concrete hash assignment used to instantiate the parametric hash model on
concrete inputs. -/
def hpT : PyHashP := ⟨String.length, Int.natAbs, 5⟩

/-- Concrete probed http service on tcp/80. -/
def svcHttp : NmapService :=
  ⟨80, "tcp", [("state", "open")],
   [("name", "http"), ("method", "probed"), ("product", "nginx")], .list []⟩

/-- Concrete ssh service on tcp/22. -/
def svcSsh : NmapService :=
  ⟨22, "tcp", [("state", "open")], [("name", "ssh")], .list []⟩

/-- Concrete host owning both services. -/
def hostA : NmapHost :=
  ⟨"1617795000", "1617795100", ["a", "b"], [("state", .str "up")],
   [("addr", .str "10.0.0.1")], [svcHttp, svcSsh], .dict []⟩

/-- `hostA` with its hostnames list permuted. -/
def hostB : NmapHost := { hostA with hostnamesL := ["b", "a"] }

/-- Concrete second host. -/
def hostC : NmapHost :=
  ⟨"", "", [], [("state", .str "up")], [("addr", .str "10.0.0.2")], [svcSsh], .dict []⟩

/-- Concrete host whose extras hold a non-numeric uptime value. -/
def hostU : NmapHost :=
  NmapHost.make "" "" Option.none Option.none Option.none Option.none
    (some (.dict [("uptime", .dict [("seconds", .str "soon")])]))

/-- `hostA` with a duplicated service identity. -/
def hostDup : NmapHost := { hostA with servicesL := [svcHttp, svcHttp] }

/-- Concrete consistent report over `hostA` and `hostC`. -/
def repGood : NmapReport :=
  ⟨some (.dict [("start", .int 1)]), some (.dict []), some [hostA, hostC],
   some (.dict [("hosts", .dict [("up", .int 2), ("down", .int 0), ("total", .int 2)])])⟩

/-- `repGood` with its run-stats section removed (`None`). -/
def repBad : NmapReport := { repGood with runstatsO := Option.none }

/-- Comparison substrate of `repGood` under `hpT`. -/
def repGoodD : List (String × PyObj) :=
  [("NmapHost.10.0.0.1", .int 69), ("NmapHost.10.0.0.2", .int 25),
   ("hosts_up", .int 2), ("hosts_down", .int 0), ("hosts_total", .int 2)]

/-- C10: `NmapHost` performs no construction-time validation of its identity
fields: a host built with `address=None` (and `status=None`) gets empty
internal dictionaries, and every identity-reading operation — the address and
status accessors, `id`, `__hash__`, `get_dict`, and `==`/`!=` against any
other host — raises a key-lookup failure (`KeyError`) instead of returning a
default. -/
theorem C10_missing_identity (hp : PyHashP) (st et : String)
    (hn : Option (List String)) (sv : Option (List NmapService)) (ex : Option PyObj)
    (b : NmapHost) :
    (NmapHost.make st et Option.none Option.none hn sv ex).addressD = [] ∧
    (NmapHost.make st et Option.none Option.none hn sv ex).statusD = [] ∧
    (NmapHost.make st et Option.none Option.none hn sv ex).address = .error .keyError ∧
    (NmapHost.make st et Option.none Option.none hn sv ex).status = .error .keyError ∧
    NmapHost.id (NmapHost.make st et Option.none Option.none hn sv ex) = .error .keyError ∧
    NmapHost.hashPy hp (NmapHost.make st et Option.none Option.none hn sv ex) =
      .error .keyError ∧
    NmapHost.get_dict hp (NmapHost.make st et Option.none Option.none hn sv ex) =
      .error .keyError ∧
    NmapHost.eqPy hp (NmapHost.make st et Option.none Option.none hn sv ex) b =
      .error .keyError ∧
    NmapHost.nePy hp (NmapHost.make st et Option.none Option.none hn sv ex) b =
      .error .keyError :=
  ⟨rfl, rfl, rfl, rfl, rfl, rfl, rfl, rfl, rfl⟩

/-- C6: `get_service` behaves as specified (ambiguity error on duplicate
identities, the unique match otherwise, `None` on no match), but
`get_service_byid` calls `s.id()` although `id` is a property — the tuple is
not callable — so any lookup over a non-empty services list raises
`TypeError` instead of returning the single match, contradicting its own
docstring `:return NmapService or None`. -/
theorem C6_get_service_byid_raises :
    NmapHost.get_service_byid hostA ("tcp", 80) = .error .typeError ∧
    NmapHost.get_service hostA 80 "tcp" = .ok (some svcHttp) ∧
    NmapHost.get_service hostDup 80 "tcp" = .error .exception ∧
    NmapHost.get_service hostA 81 "tcp" = .ok Option.none :=
  ⟨rfl, rfl, rfl, rfl⟩

/-- C3 counterexample: the integer port `0` lies in `[0, 65535]` but
construction fails, because `int(portid or -1)` treats the falsy `0` as a
missing port and replaces it by `-1`, which the range check rejects. -/
theorem C3_port_zero_rejected :
    NmapService.make (.int 0) "tcp" Option.none Option.none Option.none =
      .error .valueError := rfl

/-- C3 amended: construction succeeds for every integer port in `[1, 65535]`
(storing that port unchanged); the integer `0` is falsy, gets coerced to `-1`
and fails; every other out-of-range integer fails the range check; and every
non-numeric port (`None`, an unparsable string, a list, a dictionary) fails
the `int` conversion or the range check. -/
theorem C3_port_validation (p : Int) (proto : String)
    (st sv : Option (List (String × String))) (ex : Option PyObj) :
    (1 ≤ p ∧ p ≤ 65535 →
      NmapService.make (.int p) proto st sv ex =
        .ok ⟨p, proto, pyDictOf (st.getD []), pyDictOf (sv.getD []), ex.getD (.list [])⟩) ∧
    (p ≤ 0 ∨ 65535 < p → (NmapService.make (.int p) proto st sv ex).isOk = false) ∧
    (NmapService.make .none proto st sv ex).isOk = false ∧
    (∀ s : String, pyParseInt s = Option.none →
      (NmapService.make (.str s) proto st sv ex).isOk = false) ∧
    (∀ l, (NmapService.make (.list l) proto st sv ex).isOk = false) ∧
    (∀ dd, (NmapService.make (.dict dd) proto st sv ex).isOk = false) := by
  refine ⟨?_, ?_, ?_, ?_, ?_, ?_⟩
  · rintro ⟨h1, h2⟩
    have hne : pyTruthy (.int p) = true := by
      simp [pyTruthy]
      omega
    rw [NmapService.make, pyOr, if_pos hne]
    show (pyToInt (.int p) >>= _) = _
    rw [show pyToInt (.int p) = .ok p from rfl, except_ok_bind]
    rw [if_neg (by omega)]
  · intro hout
    by_cases hp0 : p = 0
    · subst hp0
      rfl
    · have hne : pyTruthy (.int p) = true := by
        simp [pyTruthy]
        omega
      rw [NmapService.make, pyOr, if_pos hne]
      show ((pyToInt (.int p) >>= _ : Except PyErr NmapService)).isOk = false
      rw [show pyToInt (.int p) = .ok p from rfl, except_ok_bind]
      rw [if_pos (by omega)]
      rfl
  · rfl
  · intro s hs
    by_cases hemp : s = ""
    · subst hemp
      rfl
    · have hne : pyTruthy (.str s) = true := by simp [pyTruthy, hemp]
      rw [NmapService.make, pyOr, if_pos hne]
      show ((pyToInt (.str s) >>= _ : Except PyErr NmapService)).isOk = false
      rw [show pyToInt (.str s) = .error .valueError from by rw [pyToInt, hs]]
      rfl
  · intro l
    cases l with
    | nil => rfl
    | cons x xs =>
        rw [NmapService.make, pyOr, if_pos (by simp [pyTruthy])]
        rfl
  · intro dd
    cases dd with
    | nil => rfl
    | cons x xs =>
        rw [NmapService.make, pyOr, if_pos (by simp [pyTruthy])]
        rfl

/-- C3 amended, instantiated: port 22 constructs, port 70000 and the
non-numeric string port fail. -/
theorem C3_port_validation_witness :
    NmapService.make (.int 22) "tcp" Option.none Option.none Option.none =
      .ok ⟨22, "tcp", pyDictOf (Option.none.getD []), pyDictOf (Option.none.getD []),
        (Option.none : Option PyObj).getD (.list [])⟩ ∧
    (NmapService.make (.int 70000) "tcp" Option.none Option.none Option.none).isOk = false ∧
    (NmapService.make (.str "abc") "tcp" Option.none Option.none Option.none).isOk = false :=
  ⟨(C3_port_validation 22 "tcp" Option.none Option.none Option.none).1
     ⟨by decide, by decide⟩,
   (C3_port_validation 70000 "tcp" Option.none Option.none Option.none).2.1
     (Or.inr (by decide)),
   (C3_port_validation 0 "tcp" Option.none Option.none Option.none).2.2.2.1 "abc"
     (by decide)⟩

/-- `List.contains` on strings is the decision of membership. -/
theorem contains_eq_decide_mem (l : List String) (k : String) :
    l.contains k = decide (k ∈ l) := by
  cases hc : l.contains k with
  | true => exact (decide_eq_true ((contains_iff_mem l k).mp hc)).symm
  | false =>
      refine (decide_eq_false ?_).symm
      intro hm
      rw [(contains_iff_mem l k).mpr hm] at hc
      cases hc

/-- A filterMap that either drops or maps is the map of a filter. -/
theorem filterMap_if_eq_filter_map {α β : Type} (p : α → Bool) (f : α → β) :
    ∀ l : List α,
      l.filterMap (fun x => if p x then Option.none else some (f x)) =
        (l.filter (fun x => !p x)).map f
  | [] => rfl
  | x :: xs => by
      cases hp : p x <;>
        simp [List.filterMap_cons, List.filter_cons, hp,
          filterMap_if_eq_filter_map p f xs]

/-- Specification-side banner: when the recorded detection method is active
probing (`"probed"`), the concatenation of all service-dictionary entries
except `name`/`method`/`conf`, rendered as `"key: value"` pairs; the empty
string in every other case (method absent or different). -/
def bannerSpec (s : NmapService) : String :=
  match s.serviceD.lookup "method" with
  | some m =>
      if m = "probed" then
        joinSp (s.serviceD.filterMap (fun kv =>
          if decide (kv.1 ∈ (["name", "method", "conf"] : List String)) then Option.none
          else some (kv.1 ++ ": " ++ kv.2)))
      else ""
  | Option.none => ""

/-- C8: the banner accessor returns the concatenation of the probe-reported
service fields (all service-dictionary entries except `name`/`method`/`conf`,
as `"key: value"` pairs) when the recorded detection method is `"probed"`,
and the empty string in every other case. -/
theorem C8_banner_follows_spec (s : NmapService) : s.banner = bannerSpec s := by
  cases hm : s.serviceD.lookup "method" with
  | none => simp [NmapService.banner, bannerSpec, hm]
  | some m =>
      by_cases hpm : m = "probed"
      · subst hpm
        simp only [NmapService.banner, bannerSpec, hm, if_true, eq_self_iff_true]
        rw [filterMap_if_eq_filter_map
          (fun kv => decide (kv.1 ∈ (["name", "method", "conf"] : List String)))
          (fun kv => kv.1 ++ ": " ++ kv.2) s.serviceD]
        have hf : (fun kv : String × String => !(["name", "method", "conf"].contains kv.1)) =
            (fun kv : String × String =>
              !decide (kv.1 ∈ (["name", "method", "conf"] : List String))) := by
          funext kv
          rw [contains_eq_decide_mem]
        rw [hf]
      · simp [NmapService.banner, bannerSpec, hm, hpm]

/-- C1: for same-kind entities (same class enforced by the embedding types),
`==` holds exactly when the identity keys agree and the changed count
`len(diff(other).changed())` is zero, and — under equal identities — `!=`
holds exactly when that count is positive; stated for hosts (whose identity
accessors are assumed to evaluate) and for services. -/
theorem C1_eq_iff_changed_zero (hp : PyHashP) (a b : NmapHost) (ia ib : PyObj)
    (h1 : NmapHost.id a = .ok ia) (h2 : NmapHost.id b = .ok ib)
    (s t : NmapService) :
    (NmapHost.eqPy hp a b = .ok true ↔ ia = ib ∧ NmapHost.changed hp a b = .ok 0) ∧
    (ia = ib → (NmapHost.nePy hp a b = .ok true ↔
      ∃ c, NmapHost.changed hp a b = .ok c ∧ 0 < c)) ∧
    (NmapService.eqPy s t = true ↔ s.idT = t.idT ∧ s.changed t = 0) ∧
    (s.idT = t.idT → (NmapService.nePy s t = true ↔ 0 < s.changed t)) := by
  refine ⟨?_, ?_, ?_, ?_⟩
  · rw [NmapHost.eqPy]
    show ((NmapHost.id a >>= _ : Except PyErr Bool) = _ ↔ _)
    rw [h1, except_ok_bind]
    show ((NmapHost.id b >>= _ : Except PyErr Bool) = _ ↔ _)
    rw [h2, except_ok_bind]
    by_cases hid : ia = ib
    · rw [if_pos hid]
      cases hc : NmapHost.changed hp a b with
      | error e =>
          rw [except_error_bind]
          simp [hid]
      | ok c =>
          rw [except_ok_bind]
          constructor
          · intro hok
            have hok' : Except.ok (c == 0) = Except.ok true := hok
            injection hok' with h
            exact ⟨hid, by rw [Nat.beq_eq_true_eq] at h; rw [h]⟩
          · rintro ⟨-, hc0⟩
            injection hc0 with h
            subst h
            rfl
    · rw [if_neg hid]
      constructor
      · intro hok
        cases hok
      · rintro ⟨hid', -⟩
        exact absurd hid' hid
  · intro hid
    rw [NmapHost.nePy]
    show ((NmapHost.id a >>= _ : Except PyErr Bool) = _ ↔ _)
    rw [h1, except_ok_bind]
    show ((NmapHost.id b >>= _ : Except PyErr Bool) = _ ↔ _)
    rw [h2, except_ok_bind, if_pos hid]
    cases hc : NmapHost.changed hp a b with
    | error e =>
        rw [except_error_bind]
        constructor
        · intro hok
          cases hok
        · rintro ⟨c, hc', -⟩
          cases hc'
    | ok c =>
        rw [except_ok_bind]
        constructor
        · intro hok
          have hok' : Except.ok (decide (0 < c)) = Except.ok true := hok
          injection hok' with h
          exact ⟨c, rfl, of_decide_eq_true h⟩
        · rintro ⟨c', hc', hpos⟩
          injection hc' with h
          subst h
          rw [show (pure (decide (0 < c)) : Except PyErr Bool) = .ok (decide (0 < c)) from rfl,
            decide_eq_true hpos]
  · rw [NmapService.eqPy]
    simp [Bool.and_eq_true, beq_iff_eq]
  · intro hid
    rw [NmapService.nePy, if_pos (by rw [beq_iff_eq]; exact hid)]
    simp

/-- C1 instantiated: a host compares equal to itself and a service compares
equal to itself, via the changed-count characterization. -/
theorem C1_eq_iff_changed_zero_witness :
    NmapHost.eqPy hpT hostA hostA = .ok true ∧ NmapService.eqPy svcHttp svcHttp = true :=
  ⟨((C1_eq_iff_changed_zero hpT hostA hostA (.str "10.0.0.1") (.str "10.0.0.1")
      rfl rfl svcHttp svcHttp).1).mpr ⟨rfl, rfl⟩,
   ((C1_eq_iff_changed_zero hpT hostA hostA (.str "10.0.0.1") (.str "10.0.0.1")
      rfl rfl svcHttp svcHttp).2.2.1).mpr ⟨rfl, rfl⟩⟩

/-- C2: `NmapReport.diff` is guarded by the four-section consistency check on
both reports: when either report fails the check the result is the empty set
regardless of the other report's content, and when both pass the computed
diff over the two comparison substrates is returned. -/
theorem C2_report_diff_guard (hp : PyHashP) (a b : NmapReport) :
    (¬(a.isConsistent = true ∧ b.isConsistent = true) →
      NmapReport.diff hp a b = .ok .emptySet) ∧
    (a.isConsistent = true → b.isConsistent = true →
      ∀ d1 d2, NmapReport.get_dict hp a = .ok d1 → NmapReport.get_dict hp b = .ok d2 →
        NmapReport.diff hp a b = .ok (.result (mkNmapDiff d1 d2))) := by
  constructor
  · intro hnc
    have hcond : ¬((a.isConsistent && b.isConsistent) = true) := by
      intro hand
      rw [Bool.and_eq_true] at hand
      exact hnc hand
    rw [NmapReport.diff, if_neg hcond]
    rfl
  · intro ha hb d1 d2 h1 h2
    rw [NmapReport.diff, if_pos (by rw [ha, hb]; rfl)]
    show (NmapReport.get_dict hp a >>= _) = _
    rw [h1, except_ok_bind, h2, except_ok_bind]
    rfl

/-- C2 instantiated: the report with a `None` run-stats section degrades the
diff to the empty set against a consistent report, and two consistent reports
produce the computed diff. -/
theorem C2_report_diff_guard_witness :
    NmapReport.diff hpT repBad repGood = .ok .emptySet ∧
    NmapReport.diff hpT repGood repGood = .ok (.result (mkNmapDiff repGoodD repGoodD)) :=
  ⟨(C2_report_diff_guard hpT repBad repGood).1
     (fun hc => absurd hc.1 (by decide)),
   (C2_report_diff_guard hpT repGood repGood).2 rfl rfl repGoodD repGoodD rfl rfl⟩

/-- C5: reconstructing a report from its raw form yields the very same
report, and — for a consistent report whose substrate evaluates — diffing the
reconstruction against the original computes a diff with changed count zero. -/
theorem C5_raw_roundtrip (hp : PyHashP) (r : NmapReport) (hc : r.isConsistent = true)
    (d : List (String × PyObj)) (hd : NmapReport.get_dict hp r = .ok d) :
    NmapReport.make (some r.get_raw_data) = r ∧
    NmapReport.diff hp (NmapReport.make (some r.get_raw_data)) r =
      .ok (.result (mkNmapDiff d d)) ∧
    (mkNmapDiff d d).changed.length = 0 := by
  have hmk : NmapReport.make (some r.get_raw_data) = r := by
    cases r
    rfl
  refine ⟨hmk, ?_, ?_⟩
  · rw [hmk]
    exact (C2_report_diff_guard hp r r).2 hc hc d d hd hd
  · rw [(mkNmapDiff_self d).2.2]
    rfl

/-- C5 instantiated on the concrete consistent report. -/
theorem C5_raw_roundtrip_witness :
    NmapReport.diff hpT (NmapReport.make (some repGood.get_raw_data)) repGood =
      .ok (.result (mkNmapDiff repGoodD repGoodD)) :=
  (C5_raw_roundtrip hpT repGood rfl repGoodD rfl).2.1

/-- A subscript failure is a `KeyError` or a `TypeError`. -/
theorem pySubscript_err (v : PyObj) (k : String) :
    ∀ e, pySubscript v k = .error e → e = .keyError ∨ e = .typeError := by
  intro e he
  cases v with
  | dict d =>
      rw [pySubscript] at he
      cases hl : d.lookup k with
      | some w => rw [hl] at he; cases he
      | none =>
          rw [hl] at he
          injection he with h
          exact Or.inl h.symm
  | none => injection he with h; exact Or.inr h.symm
  | int i => injection he with h; exact Or.inr h.symm
  | str s => injection he with h; exact Or.inr h.symm
  | list l => injection he with h; exact Or.inr h.symm

/-- A failure of two chained subscripts is a `KeyError` or a `TypeError`. -/
theorem chain2_err (v : PyObj) (k1 k2 : String) :
    ∀ e, (do
        let u ← pySubscript v k1
        pySubscript u k2) = .error e → e = .keyError ∨ e = .typeError := by
  intro e he
  cases h1 : pySubscript v k1 with
  | error e1 =>
      rw [h1, except_error_bind] at he
      injection he with h
      exact h ▸ pySubscript_err v k1 e1 h1
  | ok u =>
      rw [h1, except_ok_bind] at he
      exact pySubscript_err u k2 e he

/-- The try/except wrapper always succeeds when the wrapped computation can
only fail with the two caught exception kinds. -/
theorem exceptKT_ok_of {α : Type} (dflt : α) (m : Except PyErr α)
    (hm : ∀ e, m = .error e → e = .keyError ∨ e = .typeError) :
    (exceptKT dflt m).isOk = true := by
  cases m with
  | ok v => rfl
  | error e => rcases hm e rfl with rfl | rfl <;> rfl

/-- Characterization of a failure of the integer-converting extras accessors:
the only uncaught exception is the `ValueError` of `int()` applied to a
string that does not parse as an integer. -/
theorem intAccessor_error_char (v : PyObj) (k1 k2 : String) (e : PyErr)
    (he : exceptKT 0 (do
        let u ← pySubscript v k1
        let s ← pySubscript u k2
        pyToInt s) = .error e) :
    e = .valueError ∧ ∃ s, (do
        let u ← pySubscript v k1
        pySubscript u k2) = .ok (.str s) ∧ pyParseInt s = Option.none := by
  cases h1 : pySubscript v k1 with
  | error e1 =>
      rw [exceptKT.eq_def, h1, except_error_bind] at he
      rcases pySubscript_err v k1 e1 h1 with rfl | rfl <;> cases he
  | ok u =>
      rw [exceptKT.eq_def, h1, except_ok_bind] at he
      cases h2 : pySubscript u k2 with
      | error e2 =>
          rw [h2, except_error_bind] at he
          rcases pySubscript_err u k2 e2 h2 with rfl | rfl <;> cases he
      | ok sv =>
          rw [h2, except_ok_bind] at he
          cases sv with
          | int i => cases he
          | none => cases he
          | list l => cases he
          | dict dd => cases he
          | str s =>
              rw [pyToInt] at he
              cases hps : pyParseInt s with
              | some n => rw [hps] at he; cases he
              | none =>
                  rw [hps] at he
                  injection he with h
                  subst h
                  refine ⟨rfl, s, ?_, hps⟩
                  rw [except_ok_bind]
                  exact h2

/-- C7 counterexample: an extras mapping whose uptime seconds value is a
non-numeric string makes the `uptime` accessor raise a `ValueError` instead
of returning its default. -/
theorem C7_uptime_raises : NmapHost.uptime hostU = .error .valueError := rfl

/-- C7 amended: every extras accessor except `uptime` and `distance` never
fails for extras of any shape, returning its documented default when the key
chain is absent or the containers are malformed; `uptime` and `distance`
likewise default on `KeyError`/`TypeError`, but propagate the `ValueError` of
the `int` conversion when the extracted value is a string that does not parse
as an integer — that is the only way they can fail. -/
theorem C7_defensive_accessors (h : NmapHost) :
    (h.os_class_probabilities).isOk = true ∧
    (h.os_match_probabilities).isOk = true ∧
    (h.os_fingerprint).isOk = true ∧
    (h.os_ports_used).isOk = true ∧
    (h.tcpsequence).isOk = true ∧
    (h.ipsequence).isOk = true ∧
    (h.lastboot).isOk = true ∧
    (∀ e, NmapHost.uptime h = .error e → e = .valueError ∧ ∃ s, (do
        let u ← pySubscript h.extrasO "uptime"
        pySubscript u "seconds") = .ok (.str s) ∧ pyParseInt s = Option.none) ∧
    (∀ e, NmapHost.distance h = .error e → e = .valueError ∧ ∃ s, (do
        let dv ← pySubscript h.extrasO "distance"
        pySubscript dv "value") = .ok (.str s) ∧ pyParseInt s = Option.none) ∧
    (∀ e, pySubscript h.extrasO "osclass" = .error e →
      h.os_class_probabilities = .ok (.list [])) ∧
    (∀ e, pySubscript h.extrasO "osmatch" = .error e →
      h.os_match_probabilities = .ok (.list [])) ∧
    (∀ e, pySubscript h.extrasO "osfingerprint" = .error e →
      h.os_fingerprint = .ok (.str "")) ∧
    (∀ e, pySubscript h.extrasO "ports_used" = .error e →
      h.os_ports_used = .ok (.list [])) ∧
    (∀ e, (do
        let v ← pySubscript h.extrasO "tcpsequence"
        pySubscript v "difficulty") = .error e → h.tcpsequence = .ok (.str "")) ∧
    (∀ e, (do
        let v ← pySubscript h.extrasO "ipidsequance"
        pySubscript v "class") = .error e → h.ipsequence = .ok (.str "")) ∧
    (∀ e, (do
        let v ← pySubscript h.extrasO "uptime"
        pySubscript v "lastboot") = .error e → h.lastboot = .ok (.str "")) := by
  refine ⟨?_, ?_, ?_, ?_, ?_, ?_, ?_, ?_, ?_, ?_, ?_, ?_, ?_, ?_, ?_, ?_⟩
  · exact exceptKT_ok_of _ _ (pySubscript_err _ _)
  · exact exceptKT_ok_of _ _ (pySubscript_err _ _)
  · exact exceptKT_ok_of _ _ (pySubscript_err _ _)
  · exact exceptKT_ok_of _ _ (pySubscript_err _ _)
  · exact exceptKT_ok_of _ _ (chain2_err _ _ _)
  · exact exceptKT_ok_of _ _ (chain2_err _ _ _)
  · exact exceptKT_ok_of _ _ (chain2_err _ _ _)
  · intro e he
    exact intAccessor_error_char h.extrasO "uptime" "seconds" e he
  · intro e he
    exact intAccessor_error_char h.extrasO "distance" "value" e he
  · intro e he
    rw [NmapHost.os_class_probabilities, exceptKT.eq_def, he]
    rcases pySubscript_err _ _ e he with rfl | rfl <;> rfl
  · intro e he
    rw [NmapHost.os_match_probabilities, exceptKT.eq_def, he]
    rcases pySubscript_err _ _ e he with rfl | rfl <;> rfl
  · intro e he
    rw [NmapHost.os_fingerprint, exceptKT.eq_def, he]
    rcases pySubscript_err _ _ e he with rfl | rfl <;> rfl
  · intro e he
    rw [NmapHost.os_ports_used, exceptKT.eq_def, he]
    rcases pySubscript_err _ _ e he with rfl | rfl <;> rfl
  · intro e he
    rw [NmapHost.tcpsequence, exceptKT.eq_def, he]
    rcases chain2_err _ _ _ e he with rfl | rfl <;> rfl
  · intro e he
    rw [NmapHost.ipsequence, exceptKT.eq_def, he]
    rcases chain2_err _ _ _ e he with rfl | rfl <;> rfl
  · intro e he
    rw [NmapHost.lastboot, exceptKT.eq_def, he]
    rcases chain2_err _ _ _ e he with rfl | rfl <;> rfl

/-- C7 amended, instantiated on the host with a non-numeric uptime value. -/
theorem C7_defensive_accessors_witness :
    (hostU.os_class_probabilities).isOk = true ∧
    (PyErr.valueError = PyErr.valueError ∧ ∃ s, (do
        let u ← pySubscript hostU.extrasO "uptime"
        pySubscript u "seconds") = .ok (.str s) ∧ pyParseInt s = Option.none) :=
  ⟨(C7_defensive_accessors hostU).1,
   (C7_defensive_accessors hostU).2.2.2.2.2.2.2.1 .valueError rfl⟩

/-- C9: host equality, hash and comparison substrate depend only on address,
status, hostnames and the owned services — two hosts differing only in
`starttime`, `endtime` or extras have identical `get_dict` and hashes and
compare equal with changed count 0; a report's `get_dict` depends only on its
hosts and the three host counters, never on the run metadata, scan-info or
the remaining run-stats. -/
theorem C9_substrate_relevant_fields (hp : PyHashP) (h : NmapHost) (t e : String)
    (x : PyObj) (r : NmapReport) (n si rs : Option PyObj) :
    (NmapHost.get_dict hp { h with starttime := t, endtime := e, extrasO := x } =
      NmapHost.get_dict hp h) ∧
    (NmapHost.hashPy hp { h with starttime := t, endtime := e, extrasO := x } =
      NmapHost.hashPy hp h) ∧
    (∀ av sv, h.address = .ok av → h.status = .ok sv →
      NmapHost.eqPy hp { h with starttime := t, endtime := e, extrasO := x } h = .ok true ∧
      NmapHost.changed hp { h with starttime := t, endtime := e, extrasO := x } h = .ok 0) ∧
    (NmapReport.hosts_up ⟨n, si, r.hostsO, rs⟩ = r.hosts_up →
     NmapReport.hosts_down ⟨n, si, r.hostsO, rs⟩ = r.hosts_down →
     NmapReport.hosts_total ⟨n, si, r.hostsO, rs⟩ = r.hosts_total →
     NmapReport.get_dict hp ⟨n, si, r.hostsO, rs⟩ = NmapReport.get_dict hp r) := by
  refine ⟨rfl, rfl, ?_, ?_⟩
  · intro av sv ha hs
    have hgd : NmapHost.get_dict hp h = .ok (pyDictUpdate
        (pyDictOf (h.servicesL.map
          (fun s => (NmapHost.svcKey s, PyObj.int (Int.ofNat (s.svcHash hp))))))
        [("address", av), ("status", sv), ("hostnames", .str h.joined)]) := by
      rw [NmapHost.get_dict]
      show (h.address >>= _) = _
      rw [ha, except_ok_bind]
      show (h.status >>= _) = _
      rw [hs, except_ok_bind]
      rfl
    have hdf : NmapHost.diff hp { h with starttime := t, endtime := e, extrasO := x } h =
        .ok (mkNmapDiff
          (pyDictUpdate (pyDictOf (h.servicesL.map
            (fun s => (NmapHost.svcKey s, PyObj.int (Int.ofNat (s.svcHash hp))))))
            [("address", av), ("status", sv), ("hostnames", .str h.joined)])
          (pyDictUpdate (pyDictOf (h.servicesL.map
            (fun s => (NmapHost.svcKey s, PyObj.int (Int.ofNat (s.svcHash hp))))))
            [("address", av), ("status", sv), ("hostnames", .str h.joined)])) := by
      rw [NmapHost.diff]
      show (NmapHost.get_dict hp h >>= _) = _
      rw [hgd, except_ok_bind, except_ok_bind]
      rfl
    have hch : NmapHost.changed hp { h with starttime := t, endtime := e, extrasO := x } h =
        .ok 0 := by
      rw [NmapHost.changed, hdf, except_ok_bind]
      rw [(mkNmapDiff_self _).2.2]
      rfl
    refine ⟨?_, hch⟩
    rw [NmapHost.eqPy]
    show (h.address >>= _) = _
    rw [ha, except_ok_bind]
    show (h.address >>= _) = _
    rw [ha, except_ok_bind, if_pos rfl, hch, except_ok_bind]
    rfl
  · intro h1 h2 h3
    simp only [NmapReport.get_dict, h1, h2, h3]

/-- `hostA` with irrelevant fields (timestamps and extras) altered. -/
def hostA2 : NmapHost :=
  { hostA with starttime := "0", endtime := "1", extrasO := .dict [("k", .int 7)] }

/-- C9 instantiated: changing start/end times and extras of the concrete host
leaves it equal to itself, and replacing the run metadata and scan-info of
the concrete report leaves its substrate unchanged. -/
theorem C9_substrate_relevant_fields_witness :
    NmapHost.eqPy hpT hostA2 hostA = .ok true ∧
    NmapReport.get_dict hpT ⟨some (.dict []), some (.dict [("t", .str "s")]),
      repGood.hostsO, repGood.runstatsO⟩ = NmapReport.get_dict hpT repGood :=
  ⟨((C9_substrate_relevant_fields hpT hostA "0" "1" (.dict [("k", .int 7)]) repGood
      (some (.dict [])) (some (.dict [("t", .str "s")])) repGood.runstatsO).2.2.1
      (.str "10.0.0.1") (.str "up") rfl rfl).1,
   (C9_substrate_relevant_fields hpT hostA "0" "1" (.dict [("k", .int 7)]) repGood
      (some (.dict [])) (some (.dict [("t", .str "s")])) repGood.runstatsO).2.2.2
      rfl rfl rfl⟩

/-- C4 counterexample: permuting a host's hostnames list changes the joined
hostnames string, so the diff against the otherwise identical unpermuted host
has a non-empty changed set (changed count 1), refuting the claim for the
hostnames part. -/
theorem C4_hostnames_diff_not_empty :
    hostA.hostnamesL.Perm hostB.hostnamesL ∧
    hostB = { hostA with hostnamesL := hostB.hostnamesL } ∧
    NmapHost.changed hpT hostB hostA = .ok 1 :=
  ⟨List.Perm.swap "b" "a" [], rfl, rfl⟩

/-- C4 amended: permuting a host's services list leaves the structural hash
unchanged, and — when the services' rendered `(protocol, port)` identity keys
are pairwise distinct — the diff against the unpermuted host has empty
added/removed/changed sets; likewise for a report under permutation of its
hosts list when the rendered host identities are duplicate-free (a report has
no structural hash of its own).  Permuting a host's hostnames list leaves the
hash unchanged, but (counterexample) the diff may flag `hostnames` as
changed. -/
theorem C4_order_independence :
    (∀ (hp : PyHashP) (h : NmapHost) (sv' : List NmapService),
      h.servicesL.Perm sv' →
      NmapHost.hashPy hp { h with servicesL := sv' } = NmapHost.hashPy hp h) ∧
    (∀ (hp : PyHashP) (h : NmapHost) (hn' : List String),
      h.hostnamesL.Perm hn' →
      NmapHost.hashPy hp { h with hostnamesL := hn' } = NmapHost.hashPy hp h) ∧
    (∀ (hp : PyHashP) (h : NmapHost) (sv' : List NmapService),
      h.servicesL.Perm sv' → (h.servicesL.map NmapHost.svcKey).Nodup →
      ∀ d, NmapHost.diff hp { h with servicesL := sv' } h = .ok d →
        d.added = [] ∧ d.removed = [] ∧ d.changed = []) ∧
    (∀ (hp : PyHashP) (r : NmapReport) (hs hs' : List NmapHost)
      (es : List (String × PyObj)) (u dn tt : PyObj),
      r.hostsO = some hs → hs.Perm hs' →
      hs.mapM (NmapReport.hostEntry hp) = .ok es → (dictKeys es).Nodup →
      r.isConsistent = true → r.hosts_up = .ok u → r.hosts_down = .ok dn →
      r.hosts_total = .ok tt →
      ∃ d, NmapReport.diff hp { r with hostsO := some hs' } r = .ok (.result d) ∧
        d.added = [] ∧ d.removed = [] ∧ d.changed = []) :=
  ⟨NmapHost.hashPy_services_perm,
   NmapHost.hashPy_hostnames_perm,
   fun hp h sv' hperm hnd d hok => host_diff_perm_empty hp h sv' hperm hnd d hok,
   fun hp r hs hs' es u dn tt hh hperm hes hnd hcons hu hdn htt =>
     report_diff_perm_empty hp r hs hs' hh hperm es hes hnd hcons u dn tt hu hdn htt⟩

/-- C4 amended, instantiated on the concrete host and report. -/
theorem C4_order_independence_witness :
    NmapHost.hashPy hpT { hostA with servicesL := [svcSsh, svcHttp] } =
      NmapHost.hashPy hpT hostA ∧
    NmapHost.hashPy hpT hostB = NmapHost.hashPy hpT hostA ∧
    (∃ d, NmapHost.diff hpT { hostA with servicesL := [svcSsh, svcHttp] } hostA = .ok d ∧
      d.added = [] ∧ d.removed = [] ∧ d.changed = []) ∧
    (∃ d, NmapReport.diff hpT { repGood with hostsO := some [hostC, hostA] } repGood =
      .ok (.result d) ∧ d.added = [] ∧ d.removed = [] ∧ d.changed = []) := by
  refine ⟨?_, ?_, ?_, ?_⟩
  · exact C4_order_independence.1 hpT hostA [svcSsh, svcHttp]
      (List.Perm.swap svcSsh svcHttp [])
  · exact C4_order_independence.2.1 hpT hostA ["b", "a"] (List.Perm.swap "b" "a" [])
  · exact ⟨_, rfl, C4_order_independence.2.2.1 hpT hostA [svcSsh, svcHttp]
      (List.Perm.swap svcSsh svcHttp []) (by decide) _ rfl⟩
  · exact C4_order_independence.2.2.2 hpT repGood [hostA, hostC] [hostC, hostA]
      [("NmapHost.10.0.0.1", .int 69), ("NmapHost.10.0.0.2", .int 25)]
      (.int 2) (.int 0) (.int 2) rfl (List.Perm.swap hostC hostA []) rfl
      (by decide) rfl rfl rfl rfl
